import Mathlib

/-!
# Verification of the flight_coach_ai gameplay-and-training engine

Shallow embedding of the core engine (`src/lib/game-engine.ts`) and the
trainer's dataset-balancing stage (`src/lib/ml-trainer.ts`).

Conventions of the embedding:
* JavaScript numbers are modelled as exact rationals (`ℚ`); counters and
  list lengths as `Nat`/`ℤ`.
* `Math.random()` draws, the value of `Math.sin`, `Date.now()`, and the
  opaque TensorFlow model's scalar prediction are passed to the embedded
  functions as explicit oracle arguments, so the functions stay pure.
* The TensorFlow model object itself is opaque to every claim; the engine
  state is parametrised by the model's type `μ` and stores `Option μ`
  (JavaScript `null` = `none`).
* Render-only data (colors, canvas context, UI callbacks) is omitted.
* `setTimeout`/scheduling effects are returned as an explicit `Bool` flag
  ("an auto-restart was scheduled") next to the successor state.
-/

namespace FlightCoach

/-- The `GameState` union from game-engine.ts: `"menu" | "playing" | "dead"`. -/
inductive GameState where
  | menu
  | playing
  | dead
deriving DecidableEq, Repr

/-- The `Level` union from game-engine.ts: `"finetuning" | "underfitting" | "overfitting"`. -/
inductive Level where
  | finetuning
  | underfitting
  | overfitting
deriving DecidableEq, Repr

/-- The `Bird` class from game-engine.ts (position, velocity, radius; color omitted
as render-only). -/
structure Bird where
  posX : ℚ
  posY : ℚ
  velY : ℚ
  radius : ℚ
deriving DecidableEq, Repr

/-- Constructor `new Bird()`: pos (50, 300), vel 0, radius 20. -/
def Bird.init : Bird := { posX := 50, posY := 300, velY := 0, radius := 20 }

/-- Method `Bird.reset()`: pos back to (50, 300), vel 0. -/
def Bird.reset (b : Bird) : Bird := { b with posX := 50, posY := 300, velY := 0 }

/-- The `Pipe` class from game-engine.ts (color omitted as render-only; the optional
`passed` flag starts absent, i.e. falsy, so it is modelled as a `Bool`
initialised to `false`). -/
structure Pipe where
  x : ℚ
  width : ℚ
  gapSize : ℚ
  gapCenter : ℚ
  passed : Bool
deriving DecidableEq, Repr

/-- The `Pipe` constructor.  `r` is the oracle for the `Math.random()` draw
used when no fixed gap center is supplied
(`fixedGapCenter !== undefined ? fixedGapCenter : Math.random() * (canvasHeight - 300) + 150`). -/
def Pipe.make (canvasHeight x : ℚ) (fixedGapCenter : Option ℚ) (r : ℚ) : Pipe :=
  { x := x
    width := 40
    gapSize := 200
    gapCenter := fixedGapCenter.getD (r * (canvasHeight - 300) + 150)
    passed := false }

/-- Getter `get top()`: `gapCenter - gapSize / 2`. -/
def Pipe.top (p : Pipe) : ℚ := p.gapCenter - p.gapSize / 2

/-- Getter `get bottom()`: `gapCenter + gapSize / 2`. -/
def Pipe.bottom (p : Pipe) : ℚ := p.gapCenter + p.gapSize / 2

/-- The `GameData` record from game-engine.ts: one dataset row.  `pressed` only ever
holds integers (0/1 from recording, `Number.parseInt` results on import),
so it is modelled as `ℤ`; the five features are rationals. -/
structure GameData where
  pressed : ℤ
  y : ℚ
  vel : ℚ
  dist : ℚ
  mid1 : ℚ
  mid2 : ℚ
deriving DecidableEq, Repr

/-- The `FeatureStats` record from game-engine.ts. -/
structure FeatureStats where
  means : List ℚ
  stds : List ℚ
deriving DecidableEq, Repr

/-- The mutable fields of `GameEngine` that the embedded methods read or
write.  `μ` is the type of the opaque trained model; `model = none` is
JavaScript `null`.  `spaceKey` models `keys[" "]` (the only key the engine
consults); canvas dimensions are the fixed logical resolution fields. -/
structure EngineState (μ : Type) where
  canvasWidth : ℚ
  canvasHeight : ℚ
  bird : Bird
  pipes : List Pipe
  score : Nat
  highScore : Nat
  state : GameState
  spaceKey : Bool
  gravity : ℚ
  jumpStrength : ℚ
  pipeSpeed : ℚ
  pipeInterval : ℚ
  nextPipeDist : ℚ
  prevSpace : Bool
  isRecording : Bool
  isAI : Bool
  dataset : List GameData
  model : Option μ
  featureStats : Option FeatureStats
  aiPredictionCount : Nat
  jumpScheduled : Bool
  dataBuffer : Option GameData
  framesSinceLastJump : Nat
  gameOverTime : ℚ
  gameStarted : Bool
  hoverOffset : ℚ
  currentLevel : Level
  fixedGapCenter : ℚ
  isPaused : Bool
deriving DecidableEq, Repr

/-- Method `GameEngine.setLevel(level)`: sets the level, resets the fixed gap
center to half the canvas height, and stops recording.  (It does not touch
the `model` field.) -/
def setLevel {μ : Type} (s : EngineState μ) (level : Level) : EngineState μ :=
  { s with
    currentLevel := level
    fixedGapCenter := s.canvasHeight / 2
    isRecording := false }

/-- Method `GameEngine.restart()`: clears all game state and ML-related state. -/
def restart {μ : Type} (s : EngineState μ) : EngineState μ :=
  { s with
    bird := s.bird.reset
    pipes := []
    score := 0
    state := GameState.menu
    spaceKey := false
    prevSpace := false
    aiPredictionCount := 0
    framesSinceLastJump := 0
    dataBuffer := none
    jumpScheduled := false
    gameStarted := false
    hoverOffset := 0
    gameOverTime := 0
    dataset := []
    isRecording := false
    isAI := false
    model := none
    featureStats := none }

/-- Method `GameEngine.endGame()`: transition to `"dead"`, record the time of
death (`now` is the `Date.now()` oracle), raise the high score if beaten.
The returned `Bool` records whether the `setTimeout(() => startGame(), 1000)`
auto-restart was scheduled (it is exactly when `isAI` holds). -/
def endGame {μ : Type} (s : EngineState μ) (now : ℚ) : EngineState μ × Bool :=
  let s1 := { s with state := GameState.dead, gameOverTime := now }
  let s2 := if s1.score > s1.highScore then { s1 with highScore := s1.score } else s1
  (s2, s2.isAI)

/-- Method `GameEngine.stopAI()`: clear the AI flag, then end the round if one is
being played.  The `Bool` is the scheduled-auto-restart flag from `endGame`. -/
def stopAI {μ : Type} (s : EngineState μ) (now : ℚ) : EngineState μ × Bool :=
  let s1 := { s with isAI := false }
  if s1.state = GameState.playing then endGame s1 now else (s1, false)

/-- The decision part of `GameEngine.makeAIPrediction()`.  `pred` is the
oracle for the opaque model's scalar output
(`this.model.predict(xs).dataSync()[0]`).  Threshold 0.7 while fewer than
10 ticks have passed since the last jump, else the base threshold 0.5;
jump exactly when `pred` strictly exceeds it. -/
def makeAIPrediction {μ : Type} (s : EngineState μ) (pred : ℚ) : EngineState μ :=
  let s1 := { s with aiPredictionCount := s.aiPredictionCount + 1 }
  let baseThreshold : ℚ := 1/2
  let adjustedThreshold : ℚ := if s1.framesSinceLastJump < 10 then 7/10 else baseThreshold
  if pred > adjustedThreshold then
    { s1 with bird := { s1.bird with velY := s1.jumpStrength }, framesSinceLastJump := 0 }
  else
    { s1 with framesSinceLastJump := s1.framesSinceLastJump + 1 }

/-- Stable insertion of a pipe into a list already sorted by `x`
ascending; `insertByX`/`sortByX` model the stable
`Array.prototype.sort((a, b) => a.x - b.x)` used by `getNextPipe`. -/
def insertByX (p : Pipe) : List Pipe → List Pipe
  | [] => [p]
  | q :: qs => if p.x ≤ q.x then p :: q :: qs else q :: insertByX p qs

/-- Stable sort by `x` ascending (models the JS comparator sort in
`getNextPipe`). -/
def sortByX : List Pipe → List Pipe
  | [] => []
  | p :: ps => insertByX p (sortByX ps)

/-- Method `GameEngine.getNextPipe(offset)`: among the pipes whose right edge has
not yet passed the bird's left edge, the `offset`-th one in `x`-order
(`null` when there is none). -/
def getNextPipe {μ : Type} (s : EngineState μ) (offset : Nat) : Option Pipe :=
  (sortByX (s.pipes.filter fun p => p.x + p.width > s.bird.posX - s.bird.radius))[offset]?

/-- The body of `GameEngine.getCurrentData()`, as a function of the pieces
of state it reads (bird, pipes, canvas dimensions); the `Option`-typed
next/next-next pipes substitute the canvas width resp. half the canvas
height when absent. -/
def snapOf {μ : Type} (s : EngineState μ) : GameData :=
  let next := getNextPipe s 0
  let nextNext := getNextPipe s 1
  { pressed := 0
    y := s.bird.posY
    vel := s.bird.velY
    dist := (next.map fun p => p.x - s.bird.posX).getD s.canvasWidth
    mid1 := (next.map fun p => p.gapCenter).getD (s.canvasHeight / 2)
    mid2 := (nextNext.map fun p => p.gapCenter).getD (s.canvasHeight / 2) }

/-- Method `GameEngine.getCurrentData()`. -/
def getCurrentData {μ : Type} (s : EngineState μ) : GameData := snapOf s

/-- Method `GameEngine.getRawFeatures()`: the inference-time 5-vector, with
`1` substituted for the distance and the bird's own normalized `y`
substituted for a missing gap center. -/
def getRawFeatures {μ : Type} (s : EngineState μ) : List ℚ :=
  let next := getNextPipe s 0
  let nextNext := getNextPipe s 1
  [ s.bird.posY / s.canvasHeight
  , s.bird.velY / 10
  , (next.map fun p => (p.x - s.bird.posX) / s.canvasWidth).getD 1
  , (next.map fun p => p.gapCenter / s.canvasHeight).getD (s.bird.posY / s.canvasHeight)
  , (nextNext.map fun p => p.gapCenter / s.canvasHeight).getD (s.bird.posY / s.canvasHeight) ]

/-- The trainer's per-row normalization (ml-trainer.ts, the map
`d => [d.y / canvasHeight, d.vel / 10, d.dist / canvasWidth, d.mid1 / canvasHeight, d.mid2 / canvasHeight]`,
which appears identically at the raw-feature stage and in both halves of
the balanced set). -/
def normRow (canvasHeight canvasWidth : ℚ) (d : GameData) : List ℚ :=
  [ d.y / canvasHeight
  , d.vel / 10
  , d.dist / canvasWidth
  , d.mid1 / canvasHeight
  , d.mid2 / canvasHeight ]

/-- Method `GameEngine.startGame()`.  `r` is the `Math.random()` oracle for the
single pipe created at round start; in the overfitting level that pipe is
built with the session's `fixedGapCenter` (for human and AI alike). -/
def startGame {μ : Type} (s : EngineState μ) (r : ℚ) : EngineState μ :=
  { s with
    bird := s.bird.reset
    pipes :=
      if s.currentLevel = Level.overfitting then
        [Pipe.make s.canvasHeight s.canvasWidth (some s.fixedGapCenter) r]
      else
        [Pipe.make s.canvasHeight s.canvasWidth none r]
    nextPipeDist := s.pipeInterval
    score := 0
    state := GameState.playing
    prevSpace := false
    spaceKey := false
    aiPredictionCount := 0
    framesSinceLastJump := 0
    dataBuffer := none
    jumpScheduled := false
    gameStarted := false
    hoverOffset := 0 }

/-- The pipe pushed by the spawn branch of `GameEngine.update()`
(game-engine.ts lines 376-384): in the overfitting level the AI path gets
a random gap center and the human path the fixed one; other levels are
always random.  `r` is the `Math.random()` oracle. -/
def spawnedPipe {μ : Type} (s : EngineState μ) (r : ℚ) : Pipe :=
  if s.currentLevel = Level.overfitting then
    if s.isAI then
      Pipe.make s.canvasHeight s.canvasWidth none r
    else
      Pipe.make s.canvasHeight s.canvasWidth (some s.fixedGapCenter) r
  else
    Pipe.make s.canvasHeight s.canvasWidth none r

/-- The `for (const pipe of this.pipes)` loop of `update()`: moves each
pipe left by `pipeSpeed`, stops at the first collision (later pipes stay
unmoved, mirroring the early `return`), and counts the pass-through score
increments applied before any collision.  Returns the resulting pipe
list, the number of score increments, and whether a collision ended the
round. -/
def pipesLoop (birdX birdY radius pipeSpeed : ℚ) : List Pipe → List Pipe × Nat × Bool
  | [] => ([], 0, false)
  | p :: rest =>
    let p1 := { p with x := p.x - pipeSpeed }
    if birdX + radius > p1.x ∧ birdX - radius < p1.x + p1.width ∧
        (birdY - radius < p1.top ∨ birdY + radius > p1.bottom) then
      (p1 :: rest, 0, true)
    else
      let scored := p1.x + p1.width < birdX ∧ p1.passed = false
      let p2 := if scored then { p1 with passed := true } else p1
      let (ps, n, c) := pipesLoop birdX birdY radius pipeSpeed rest
      (p2 :: ps, (if scored then 1 else 0) + n, c)

/-- Method `GameEngine.update()`.  Oracles: `r` for the `Math.random()` draw of a
pipe spawned this tick, `sinVal` for `Math.sin(hoverOffset) * 2` after the
idle-hover increment, `now` for `Date.now()` inside `endGame`.  The `Bool`
is `endGame`'s scheduled-auto-restart flag (`false` when the round did not
end this tick). -/
def update {μ : Type} (s : EngineState μ) (r sinVal now : ℚ) : EngineState μ × Bool :=
  if s.isPaused ∨ s.state ≠ GameState.playing then (s, false) else
  let afterWorld : EngineState μ × Option (EngineState μ × Bool) :=
    if s.gameStarted ∨ s.isAI then
      let bird1 := { s.bird with velY := s.bird.velY + s.gravity }
      let bird2 := { bird1 with posY := bird1.posY + bird1.velY }
      let s1 := { s with bird := bird2, nextPipeDist := s.nextPipeDist - s.pipeSpeed }
      let s2 :=
        if s1.nextPipeDist ≤ (0 : ℚ) then
          { s1 with pipes := s1.pipes ++ [spawnedPipe s1 r], nextPipeDist := s1.pipeInterval }
        else s1
      let s3 := { s2 with pipes := s2.pipes.filter fun p => p.x + p.width > 0 }
      let (ps, incs, collided) :=
        pipesLoop s3.bird.posX s3.bird.posY s3.bird.radius s3.pipeSpeed s3.pipes
      let s4 := { s3 with pipes := ps, score := s3.score + incs }
      if collided then (s4, some (endGame s4 now)) else (s4, none)
    else
      let s1 := { s with hoverOffset := s.hoverOffset + 1/20 }
      ({ s1 with bird := { s1.bird with posY := 300 + sinVal } }, none)
  match afterWorld with
  | (_, some ended) => ended
  | (sW, none) =>
    let sI :=
      if ¬sW.isAI ∧ sW.spaceKey ∧ ¬sW.prevSpace then
        { sW with
          bird := { sW.bird with velY := sW.jumpStrength }
          prevSpace := true
          jumpScheduled := true
          gameStarted := true }
      else sW
    if (sI.gameStarted ∨ sI.isAI) ∧
        (sI.bird.posY + sI.bird.radius > sI.canvasHeight ∨ sI.bird.posY - sI.bird.radius < 0) then
      endGame sI now
    else (sI, false)

/-- Method `GameEngine.pauseRecording()`. -/
def pauseRecording {μ : Type} (s : EngineState μ) : EngineState μ :=
  { s with isRecording := false }

/-- The "save previous frame's data with current frame's action, then
buffer current frame data" step of the recording tick. -/
def recordStep {μ : Type} (s : EngineState μ) : EngineState μ :=
  let ds :=
    match s.dataBuffer with
    | some b => s.dataset ++ [{ b with pressed := if s.jumpScheduled then 1 else 0 }]
    | none => s.dataset
  { s with dataset := ds, dataBuffer := some (getCurrentData s), jumpScheduled := false }

/-- One firing of the 100 ms `setInterval` callback installed by
`GameEngine.setupDataCollection()`.  `pred` is the oracle for the model's
output should the AI-prediction branch run. -/
def collectTick {μ : Type} (s : EngineState μ) (pred : ℚ) : EngineState μ :=
  if s.isPaused ∨ s.state ≠ GameState.playing then s else
  let s1 :=
    if s.isRecording ∧ s.gameStarted then
      -- maxDataPoints = 50 for the underfitting level, null otherwise;
      -- `maxDataPoints && dataset.length >= maxDataPoints` pauses recording.
      if s.currentLevel = Level.underfitting ∧ 50 ≤ s.dataset.length then
        pauseRecording s
      else
        recordStep s
    else s
  if s1.isAI ∧ s1.model.isSome then makeAIPrediction s1 pred else s1

/-- A scripted sequence of recording ticks: between consecutive ticks the
environment (the render-loop physics and the input handlers) moves the
bird and the pipes and may schedule a jump (`jumpScheduled` is only ever
set to `true` by the key/click handlers and `update`, modelled by the
`Bool.or`); each element carries the bird and pipes the tick observes,
whether a jump was scheduled since the previous tick, and the model-output
oracle. -/
def runTicks {μ : Type} : List (Bird × List Pipe × Bool × ℚ) → EngineState μ → EngineState μ
  | [], s => s
  | (b, ps, j, pred) :: rest, s =>
    runTicks rest
      (collectTick { s with bird := b, pipes := ps, jumpScheduled := s.jumpScheduled || j } pred)

/-! ## Trainer dataset balancing (ml-trainer.ts, `trainModel` lines 111-148) -/

/-- The `for (let i = 0; i < class0.length; i += step)` sampling loop of
the trainer's class balancing: walk the negative class with stride `step`,
appending `class0[i]` while fewer than `sampleSize` rows have been taken.
The `0 < step` conjunct in the guard makes the recursion terminate; every
call the trainer makes has either `0 < step` or an empty `class0`, and in
the latter case the loop body never runs on either side. -/
def strideLoop (class0 : List GameData) (sampleSize step i : Nat) (acc : List GameData) :
    List GameData :=
  if h : i < class0.length ∧ 0 < step then
    strideLoop class0 sampleSize step (i + step)
      (if acc.length < sampleSize then acc ++ [class0.get ⟨i, h.1⟩] else acc)
  else acc
termination_by class0.length - i
decreasing_by omega

/-- The class-balancing stage of `MLTrainer.trainModel`: partition by
label, require a positive example, compute ratio/sampleSize/step, stride
through the negative class, and assemble the balanced feature and label
lists handed to the shuffle.  (The source pushes a `[0]` label alongside
each sampled negative row and maps the positive class to `[1]` labels;
the parallel label array is modelled as a map over the sampled rows.)
In JavaScript `step` is `Math.floor(class0.length / sampleSize)`, which is
`NaN` when both counts are zero; then the loop body never runs, exactly as
with the `0` that natural division produces here. -/
def balanceDataset (finalDataset : List GameData) (canvasHeight canvasWidth : ℚ) :
    Except String (List (List ℚ) × List (List ℚ)) :=
  let class0 := finalDataset.filter fun d => d.pressed = 0
  let class1 := finalDataset.filter fun d => d.pressed = 1
  if 0 < class1.length then
    let ratio : ℚ := min 2 ((class0.length : ℚ) / (class1.length : ℚ))
    let sampleSize : Nat := (⌊(class1.length : ℚ) * ratio⌋).toNat
    let step : Nat := class0.length / sampleSize
    let sampledClass0 := strideLoop class0 sampleSize step 0 []
    Except.ok
      (sampledClass0.map (normRow canvasHeight canvasWidth) ++
         class1.map (normRow canvasHeight canvasWidth),
       sampledClass0.map (fun _ => [(0 : ℚ)]) ++ class1.map (fun _ => [(1 : ℚ)]))
  else
    Except.error "No jump actions recorded! Please record some gameplay with jumps."

/-! ## CSV export/import (game-engine.ts `downloadCSV`/`uploadCSV`)

Text is modelled as `List Char`.  `jsSplit` models the single-separator
`String.prototype.split`; the numeric printers/parsers model JavaScript
`toFixed(2)`, number-to-string, `Number.parseInt` and `Number.parseFloat`
on the plain decimal notation these CSV files contain (inputs with no
digits at all, where the JS parsers produce `NaN`, are mapped to 0). -/

/-- Models `Array.prototype.join(sep)` for a one-character separator. -/
def joinSep (sep : Char) : List (List Char) → List Char
  | [] => []
  | [p] => p
  | p :: rest => p ++ sep :: joinSep sep rest

/-- Models `String.prototype.split(sep)` for a one-character separator:
`"".split(sep) = [""]`, separators delimit possibly-empty pieces. -/
def jsSplit (sep : Char) : List Char → List (List Char)
  | [] => [[]]
  | c :: cs =>
    if c = sep then [] :: jsSplit sep cs
    else
      match jsSplit sep cs with
      | [] => [[c]]
      | piece :: rest => (c :: piece) :: rest

/-- The decimal digit character for `d < 10`. -/
def digitChar (d : Nat) : Char := Char.ofNat (48 + d)

/-- Base-10 rendering of a natural number, most significant digit first. -/
def natDigits (n : Nat) : List Char :=
  if n < 10 then [digitChar n]
  else natDigits (n / 10) ++ [digitChar (n % 10)]
termination_by n
decreasing_by exact Nat.div_lt_self (by omega) (by omega)

/-- Numeric value of a digit string (0 for the empty string, standing in
for the JS parsers' `NaN` on digit-free input). -/
def digitsVal (s : List Char) : Nat :=
  s.foldl (fun acc c => 10 * acc + (c.toNat - 48)) 0

/-- JavaScript number-to-string for the integer-valued `pressed` field
(the `${row.pressed}` interpolation in `downloadCSV`). -/
def intStr (n : ℤ) : List Char :=
  (if n < 0 then ['-'] else []) ++ natDigits n.natAbs

/-- The integer `toFixed(2)` rounds `100 · x` to: nearest, ties away from
zero (ECMAScript `Number.prototype.toFixed` rounds the magnitude half-up
and re-attaches the sign). -/
def fixed2Int (x : ℚ) : ℤ :=
  if x < 0 then -⌊100 * (-x) + 1/2⌋ else ⌊100 * x + 1/2⌋

/-- The exact rational value denoted by `x.toFixed(2)` — `x` rounded to
two decimal places. -/
def round2 (x : ℚ) : ℚ := (fixed2Int x : ℚ) / 100

/-- Rendering of `x.toFixed(2)`: sign of `x`, integer part, `'.'`, exactly two
fraction digits. -/
def toFixed2 (x : ℚ) : List Char :=
  let m : Nat := (fixed2Int x).natAbs
  (if x < 0 then ['-'] else []) ++
    natDigits (m / 100) ++ '.' :: [digitChar (m % 100 / 10), digitChar (m % 100 % 10)]

/-- Models `Number.parseInt` (radix 10) on decimal notation: optional sign, then
the leading run of digits. -/
def parseIntJS (s : List Char) : ℤ :=
  match s.dropWhile Char.isWhitespace with
  | [] => 0
  | c :: rest =>
    if c = '-' then -(digitsVal (rest.takeWhile Char.isDigit) : ℤ)
    else if c = '+' then (digitsVal (rest.takeWhile Char.isDigit) : ℤ)
    else (digitsVal ((c :: rest).takeWhile Char.isDigit) : ℤ)

/-- Unsigned part of `Number.parseFloat` on plain decimal notation:
leading digits, optionally `'.'` and fraction digits. -/
def parseDecCore (s : List Char) : ℚ :=
  match s.dropWhile Char.isDigit with
  | c :: r2 =>
    if c = '.' then
      (digitsVal (s.takeWhile Char.isDigit) : ℚ) +
        (digitsVal (r2.takeWhile Char.isDigit) : ℚ) /
          (10 : ℚ) ^ (r2.takeWhile Char.isDigit).length
    else (digitsVal (s.takeWhile Char.isDigit) : ℚ)
  | [] => (digitsVal (s.takeWhile Char.isDigit) : ℚ)

/-- Models `Number.parseFloat` on plain decimal notation: optional whitespace and
sign, then `parseDecCore`. -/
def parseDec (s : List Char) : ℚ :=
  match s.dropWhile Char.isWhitespace with
  | [] => parseDecCore []
  | c :: rest =>
    if c = '-' then -(parseDecCore rest)
    else if c = '+' then parseDecCore rest
    else parseDecCore (c :: rest)

/-- The exact CSV header line `"pressed,y,vel,dist,mid1,mid2"`. -/
def headerChars : List Char := "pressed,y,vel,dist,mid1,mid2".toList

/-- One exported CSV line:
`` `${pressed},${y.toFixed(2)},${vel.toFixed(2)},${dist.toFixed(2)},${mid1.toFixed(2)},${mid2.toFixed(2)}` ``. -/
def rowLine (r : GameData) : List Char :=
  joinSep ','
    [intStr r.pressed, toFixed2 r.y, toFixed2 r.vel, toFixed2 r.dist,
     toFixed2 r.mid1, toFixed2 r.mid2]

/-- The CSV text built by `downloadCSV`: header, newline, rows joined by
newlines. -/
def downloadText (ds : List GameData) : List Char :=
  headerChars ++ '\n' :: joinSep '\n' (ds.map rowLine)

/-- Method `GameEngine.downloadCSV()`: `none` models the "No data to download!"
early return; otherwise the produced file text. -/
def downloadCSV {μ : Type} (s : EngineState μ) : Option (List Char) :=
  if s.dataset.length = 0 then none else some (downloadText s.dataset)

/-- One parsed CSV data row (`uploadCSV`'s `newData.push({...})`). -/
def parseRowVals (vs : List (List Char)) : GameData :=
  { pressed := parseIntJS (vs.getD 0 [])
    y := parseDec (vs.getD 1 [])
    vel := parseDec (vs.getD 2 [])
    dist := parseDec (vs.getD 3 [])
    mid1 := parseDec (vs.getD 4 [])
    mid2 := parseDec (vs.getD 5 []) }

/-- The parsing part of `GameEngine.uploadCSV`: split into lines, check
the re-joined split header against the exact schema, then walk the data
lines, skipping blank (all-whitespace, i.e. `trim() === ""`) lines and
lines whose comma-split length is not 6; fail when nothing parsed. -/
def uploadParse (text : List Char) : Except String (List GameData) :=
  let lines := jsSplit '\n' text
  let headers := jsSplit ',' (lines.getD 0 [])
  if joinSep ',' headers ≠ headerChars then
    Except.error "Invalid CSV format"
  else
    let newData := (lines.drop 1).filterMap fun l =>
      if l.all Char.isWhitespace then none
      else
        let vs := jsSplit ',' l
        if vs.length = 6 then some (parseRowVals vs) else none
    if 0 < newData.length then Except.ok newData
    else Except.error "No valid data found"

/-- Method `GameEngine.uploadCSV`: on success append the parsed rows to the
dataset; on any failure (rejected promise) leave the state untouched.
The `Bool` reports success. -/
def uploadCSV {μ : Type} (s : EngineState μ) (text : List Char) : EngineState μ × Bool :=
  match uploadParse text with
  | Except.ok nd => ({ s with dataset := s.dataset ++ nd }, true)
  | Except.error _ => (s, false)

/-! ## Expected shape of a recorded dataset (for the label-lag claim) -/

/-- Helper for `lagRows`: given the row currently sitting in the data
buffer, the rows the remaining ticks will append — each carries the
buffered features and the label of the jump input of the tick that
finalized it, and re-buffers that tick's snapshot. -/
def lagAux {μ : Type} (s : EngineState μ) (snap : GameData) :
    List (Bird × List Pipe × Bool × ℚ) → List GameData
  | [] => []
  | (b, ps, j, _) :: rest =>
    { snap with pressed := if j then 1 else 0 } ::
      lagAux s (snapOf { s with bird := b, pipes := ps }) rest

/-- The dataset a scripted tick sequence should produce: row *i* holds the
feature snapshot observed at tick *i* labelled with the jump input of tick
*i+1* (the final snapshot stays in the buffer, unlabelled). -/
def lagRows {μ : Type} (s : EngineState μ) :
    List (Bird × List Pipe × Bool × ℚ) → List GameData
  | [] => []
  | (b, ps, _, _) :: rest => lagAux s (snapOf { s with bird := b, pipes := ps }) rest

/-- A dataset row after one export/import round trip: the five numeric
fields rounded to two decimal places, the label kept. -/
def round2Row (r : GameData) : GameData :=
  { pressed := r.pressed, y := round2 r.y, vel := round2 r.vel, dist := round2 r.dist,
    mid1 := round2 r.mid1, mid2 := round2 r.mid2 }

/-! ## Concrete states (the `GameEngine` constructor, and examples used by
witnesses and counterexamples) -/

/-- The field values installed by the `GameEngine` constructor (gravity
0.2, jump strength -5, pipe speed 2, spawn interval 250, fixed gap center
at half the canvas height, level `"finetuning"`). -/
def initialState (μ : Type) (canvasWidth canvasHeight : ℚ) : EngineState μ :=
  { canvasWidth := canvasWidth
    canvasHeight := canvasHeight
    bird := Bird.init
    pipes := []
    score := 0
    highScore := 0
    state := GameState.menu
    spaceKey := false
    gravity := 1/5
    jumpStrength := -5
    pipeSpeed := 2
    pipeInterval := 250
    nextPipeDist := 0
    prevSpace := false
    isRecording := false
    isAI := false
    dataset := []
    model := none
    featureStats := none
    aiPredictionCount := 0
    jumpScheduled := false
    dataBuffer := none
    framesSinceLastJump := 0
    gameOverTime := 0
    gameStarted := false
    hoverOffset := 0
    currentLevel := Level.finetuning
    fixedGapCenter := canvasHeight / 2
    isPaused := false }

/-- An engine at the page's 400×600 canvas with a trained model installed. -/
def exWithModel : EngineState Nat := { initialState Nat 400 600 with model := some 7 }

/-- An overfitting-level engine in AI mode. -/
def exOverfitAI : EngineState Nat :=
  { initialState Nat 400 600 with currentLevel := Level.overfitting, isAI := true }

/-- An engine with no pipes and the bird away from mid-height. -/
def exNoPipe : EngineState Nat :=
  { initialState Nat 400 600 with bird := { Bird.init with posY := 100 } }

/-- An engine with two upcoming pipes ahead of the bird. -/
def exTwoPipes : EngineState Unit :=
  { initialState Unit 400 600 with
    pipes := [{ x := 400, width := 40, gapSize := 200, gapCenter := 250, passed := false },
              { x := 700, width := 40, gapSize := 200, gapCenter := 320, passed := false }] }

/-- An engine in the middle of a recording round (playing, recording,
started, unpaused, fine-tuning level, empty buffer). -/
def exRecording : EngineState Unit :=
  { initialState Unit 400 600 with
    state := GameState.playing
    isRecording := true
    gameStarted := true }

/-- Three scripted recording ticks over an empty playfield: a jump is
scheduled during the interval leading into the second tick only. -/
def exTickInputs : List (Bird × List Pipe × Bool × ℚ) :=
  [({ posX := 50, posY := 100, velY := 1, radius := 20 }, [], false, 0),
   ({ posX := 50, posY := 200, velY := 2, radius := 20 }, [], true, 0),
   ({ posX := 50, posY := 250, velY := 3, radius := 20 }, [], false, 0)]

/-- A recording round at the underfitting level whose dataset already
holds exactly 50 rows. -/
def exCapped : EngineState Unit :=
  { exRecording with
    currentLevel := Level.underfitting
    dataset := List.replicate 50 { pressed := 0, y := 0, vel := 0, dist := 0, mid1 := 0, mid2 := 0 } }

/-- The capped recording round of `exCapped` with a row sitting in the
data buffer and a jump scheduled since the previous tick. -/
def exCappedBuf : EngineState Unit :=
  { exCapped with
    dataBuffer := some { pressed := 0, y := 1, vel := 2, dist := 3, mid1 := 4, mid2 := 5 }
    jumpScheduled := true }

/-- A CSV text with the exact header, one well-formed data line, one
malformed (two-field) line, and a trailing blank line. -/
def exCSVText : List Char :=
  "pressed,y,vel,dist,mid1,mid2\n1,2.00,3.00,4.00,5.00,6.00\nbad,line\n".toList

/-- A CSV text whose header line is wrong. -/
def exCSVBad : List Char := "pressed,y,vel\n1,2.00,3.00,4.00,5.00,6.00".toList

/-- An engine holding one recorded row whose velocity needs rounding on
export (-3/8 = -0.375 prints as "-0.38"). -/
def exExportState : EngineState Unit :=
  { initialState Unit 400 600 with
    dataset := [{ pressed := 1, y := 5/2, vel := -3/8, dist := 100, mid1 := 0, mid2 := 7 }] }

/-- A five-row dataset with three negative and two positive rows. -/
def exBalanceDs : List GameData :=
  [{ pressed := 0, y := 10, vel := 1, dist := 100, mid1 := 200, mid2 := 300 },
   { pressed := 1, y := 20, vel := 2, dist := 110, mid1 := 210, mid2 := 310 },
   { pressed := 0, y := 30, vel := 3, dist := 120, mid1 := 220, mid2 := 320 },
   { pressed := 1, y := 40, vel := 4, dist := 130, mid1 := 230, mid2 := 330 },
   { pressed := 0, y := 50, vel := 5, dist := 140, mid1 := 240, mid2 := 340 }]

/-! # Theorems -/

/-- The method `makeAIPrediction` touches only the prediction counter, the bird's
velocity, and the ticks-since-last-jump counter: every field the
recording pipeline reads is preserved. -/
theorem makeAIPrediction_preserves {μ : Type} (s : EngineState μ) (pred : ℚ) :
    (makeAIPrediction s pred).dataset = s.dataset ∧
    (makeAIPrediction s pred).dataBuffer = s.dataBuffer ∧
    (makeAIPrediction s pred).jumpScheduled = s.jumpScheduled ∧
    (makeAIPrediction s pred).isRecording = s.isRecording ∧
    (makeAIPrediction s pred).state = s.state ∧
    (makeAIPrediction s pred).gameStarted = s.gameStarted ∧
    (makeAIPrediction s pred).isPaused = s.isPaused ∧
    (makeAIPrediction s pred).currentLevel = s.currentLevel ∧
    (makeAIPrediction s pred).canvasWidth = s.canvasWidth ∧
    (makeAIPrediction s pred).canvasHeight = s.canvasHeight := by
  simp only [makeAIPrediction]
  split_ifs <;> simp

/-- The snapshot `snapOf` reads only the bird, the pipes, and the canvas dimensions. -/
theorem snapOf_congr {μ : Type} (s t : EngineState μ)
    (hb : s.bird = t.bird) (hp : s.pipes = t.pipes)
    (hw : s.canvasWidth = t.canvasWidth) (hh : s.canvasHeight = t.canvasHeight) :
    snapOf s = snapOf t := by
  simp [snapOf, getNextPipe, hb, hp, hw, hh]

/-- The helper `lagAux` depends on its base state only through the canvas
dimensions. -/
theorem lagAux_congr {μ : Type} (s t : EngineState μ)
    (hw : s.canvasWidth = t.canvasWidth) (hh : s.canvasHeight = t.canvasHeight) :
    ∀ (inputs : List (Bird × List Pipe × Bool × ℚ)) (snap : GameData),
      lagAux s snap inputs = lagAux t snap inputs := by
  intro inputs
  induction inputs with
  | nil => intro snap; rfl
  | cons x rest ih =>
    intro snap
    obtain ⟨b, ps, j, pred⟩ := x
    simp only [lagAux]
    refine congrArg _ ?_
    rw [ih, snapOf_congr (μ := μ) { s with bird := b, pipes := ps }
      { t with bird := b, pipes := ps } rfl rfl hw hh]

/-- A recording tick on an unpaused, playing, recording, started engine
that is not at the underfitting cap: it finalizes the buffered row with
the pending jump flag, pushes it, re-buffers the current snapshot, clears
the jump flag, and preserves every control flag it read. -/
theorem collectTick_record {μ : Type} (s : EngineState μ) (pred : ℚ)
    (hp : s.isPaused = false) (hst : s.state = GameState.playing)
    (hr : s.isRecording = true) (hg : s.gameStarted = true)
    (hcap : ¬(s.currentLevel = Level.underfitting ∧ 50 ≤ s.dataset.length)) :
    (collectTick s pred).dataset =
        (match s.dataBuffer with
         | some b => s.dataset ++ [{ b with pressed := if s.jumpScheduled then 1 else 0 }]
         | none => s.dataset) ∧
    (collectTick s pred).dataBuffer = some (getCurrentData s) ∧
    (collectTick s pred).jumpScheduled = false ∧
    (collectTick s pred).isRecording = true ∧
    (collectTick s pred).state = GameState.playing ∧
    (collectTick s pred).gameStarted = true ∧
    (collectTick s pred).isPaused = false ∧
    (collectTick s pred).currentLevel = s.currentLevel ∧
    (collectTick s pred).canvasWidth = s.canvasWidth ∧
    (collectTick s pred).canvasHeight = s.canvasHeight := by
  have e : collectTick s pred =
      (if (recordStep s).isAI ∧ (recordStep s).model.isSome
       then makeAIPrediction (recordStep s) pred else recordStep s) := by
    simp [collectTick, hp, hst, hr, hg, hcap]
  by_cases hAI : (recordStep s).isAI ∧ (recordStep s).model.isSome
  · rw [e, if_pos hAI]
    obtain ⟨d1, d2, d3, d4, d5, d6, d7, d8, d9, d10⟩ :=
      makeAIPrediction_preserves (recordStep s) pred
    rw [d1, d2, d3, d4, d5, d6, d7, d8, d9, d10]
    exact ⟨rfl, rfl, rfl, hr, hst, hg, hp, rfl, rfl, rfl⟩
  · rw [e, if_neg hAI]
    exact ⟨rfl, rfl, rfl, hr, hst, hg, hp, rfl, rfl, rfl⟩

/-- Running scripted ticks from a state that already holds a buffered
row: as long as the underfitting cap cannot fire (wrong level, or too few
ticks to reach 50 rows), the dataset grows by exactly the one-tick-lagged
rows. -/
theorem runTicks_lagAux {μ : Type} :
    ∀ (inputs : List (Bird × List Pipe × Bool × ℚ)) (s : EngineState μ) (buf : GameData),
      s.isPaused = false → s.state = GameState.playing → s.isRecording = true →
      s.gameStarted = true →
      (s.currentLevel ≠ Level.underfitting ∨ s.dataset.length + inputs.length ≤ 50) →
      s.dataBuffer = some buf → s.jumpScheduled = false →
      (runTicks inputs s).dataset = s.dataset ++ lagAux s buf inputs := by
  intro inputs
  induction inputs with
  | nil =>
    intro s buf _ _ _ _ _ _ _
    simp [runTicks, lagAux]
  | cons x rest ih =>
    intro s buf hp hst hr hg hl hbuf hjs
    obtain ⟨b, ps, j, pred⟩ := x
    have hlc : ((b, ps, j, pred) :: rest).length = rest.length + 1 := rfl
    rw [hlc] at hl
    have hcap :
        ¬(({ s with bird := b, pipes := ps, jumpScheduled := s.jumpScheduled || j } :
              EngineState μ).currentLevel = Level.underfitting ∧
          50 ≤ ({ s with bird := b, pipes := ps, jumpScheduled := s.jumpScheduled || j } :
              EngineState μ).dataset.length) := by
      rcases hl with hl | hl
      · exact fun hc => hl hc.1
      · intro hc
        have h2 : 50 ≤ s.dataset.length := hc.2
        omega
    obtain ⟨c1, c2, c3, c4, c5, c6, c7, c8, c9, c10⟩ :=
      collectTick_record
        { s with bird := b, pipes := ps, jumpScheduled := s.jumpScheduled || j } pred
        hp hst hr hg hcap
    have c1' :
        (collectTick { s with bird := b, pipes := ps, jumpScheduled := s.jumpScheduled || j }
            pred).dataset =
          s.dataset ++ [{ buf with pressed := if j then 1 else 0 }] := by
      rw [c1, hbuf]
      simp [hjs]
    have hlen' :
        (collectTick { s with bird := b, pipes := ps, jumpScheduled := s.jumpScheduled || j }
            pred).dataset.length = s.dataset.length + 1 := by
      rw [c1']
      simp
    have hl2 :
        (collectTick { s with bird := b, pipes := ps, jumpScheduled := s.jumpScheduled || j }
            pred).currentLevel ≠ Level.underfitting ∨
          (collectTick { s with bird := b, pipes := ps, jumpScheduled := s.jumpScheduled || j }
            pred).dataset.length + rest.length ≤ 50 := by
      rcases hl with hl | hl
      · left; rw [c8]; exact hl
      · right; omega
    have step := ih
      (collectTick { s with bird := b, pipes := ps, jumpScheduled := s.jumpScheduled || j } pred)
      (snapOf { s with bird := b, pipes := ps, jumpScheduled := s.jumpScheduled || j })
      c7 c5 c4 c6 hl2 c2 c3
    have hsnap :
        snapOf { s with bird := b, pipes := ps, jumpScheduled := s.jumpScheduled || j } =
          snapOf { s with bird := b, pipes := ps } :=
      snapOf_congr _ _ rfl rfl rfl rfl
    have hlag :
        lagAux
            (collectTick { s with bird := b, pipes := ps, jumpScheduled := s.jumpScheduled || j }
              pred)
            (snapOf { s with bird := b, pipes := ps }) rest =
          lagAux s (snapOf { s with bird := b, pipes := ps }) rest :=
      lagAux_congr
        (collectTick { s with bird := b, pipes := ps, jumpScheduled := s.jumpScheduled || j }
          pred)
        s (by exact c9) (by exact c10) rest _
    show (runTicks rest
        (collectTick { s with bird := b, pipes := ps, jumpScheduled := s.jumpScheduled || j }
          pred)).dataset = s.dataset ++ lagAux s buf ((b, ps, j, pred) :: rest)
    rw [step, c1', hsnap, hlag]
    simp [lagAux, List.append_assoc]

/-- A recording tick at the underfitting 50-row cap pauses recording and
leaves both the dataset and the data buffer untouched. -/
theorem collectTick_cap_pause {μ : Type} (s : EngineState μ) (pred : ℚ)
    (hp : s.isPaused = false) (hst : s.state = GameState.playing)
    (hr : s.isRecording = true) (hg : s.gameStarted = true)
    (hl : s.currentLevel = Level.underfitting) (h50 : 50 ≤ s.dataset.length) :
    (collectTick s pred).isRecording = false ∧
      (collectTick s pred).dataset = s.dataset ∧
      (collectTick s pred).dataBuffer = s.dataBuffer := by
  have h1 : ¬(s.isPaused = true ∨ s.state ≠ GameState.playing) := by
    simp [hp, hst]
  have h3 : s.currentLevel = Level.underfitting ∧ 50 ≤ s.dataset.length := ⟨hl, h50⟩
  have h2 : s.isRecording = true ∧ s.gameStarted = true := ⟨hr, hg⟩
  have e : collectTick s pred =
      (if (pauseRecording s).isAI ∧ (pauseRecording s).model.isSome
       then makeAIPrediction (pauseRecording s) pred else pauseRecording s) := by
    simp only [collectTick]
    rw [if_neg h1, if_pos h3, if_pos h2]
  by_cases hAI : (pauseRecording s).isAI ∧ (pauseRecording s).model.isSome
  · rw [e, if_pos hAI]
    obtain ⟨d1, d2, _, d4, _⟩ := makeAIPrediction_preserves (pauseRecording s) pred
    rw [d1, d2, d4]
    exact ⟨rfl, rfl, rfl⟩
  · rw [e, if_neg hAI]
    exact ⟨rfl, rfl, rfl⟩

/-- C1, counterexample: on an actively recording, started, unpaused round
at the underfitting level whose dataset already holds 50 rows, with a row
in the buffer and a jump scheduled, the next data-collection tick pushes
nothing (the dataset is unchanged) and pauses recording instead —
refuting "the data-collection tick at tick N finalizes the row buffered
at tick N−1 ... [and] pushes that row to the dataset" for that tick. -/
theorem claim_C1_counterexample :
    exCappedBuf.isRecording = true ∧ exCappedBuf.gameStarted = true ∧
    exCappedBuf.state = GameState.playing ∧ exCappedBuf.isPaused = false ∧
    exCappedBuf.dataBuffer.isSome = true ∧ exCappedBuf.jumpScheduled = true ∧
    (collectTick exCappedBuf 0).dataset = exCappedBuf.dataset ∧
    (collectTick exCappedBuf 0).isRecording = false := by decide

/-- C1 (amended): while recording is active, the round has started and
the engine is unpaused, a data-collection tick that is not at the
underfitting 50-row cap finalizes the row buffered at the previous tick
by setting its `pressed` label to 1 exactly when a jump was scheduled
during the tick that just elapsed (0 otherwise), pushes that row to the
dataset, and then buffers a fresh feature snapshot, while a tick at the
cap pauses recording and appends nothing; consequently every scripted
tick sequence that cannot reach the cap — any non-underfitting level, or
at most 50 ticks from an empty dataset — produces exactly the
one-tick-lagged dataset: row *i* carries the snapshot observed at tick
*i* and the label of the jump input of tick *i+1*. -/
theorem claim_C1 {μ : Type} (s : EngineState μ) :
    (∀ pred : ℚ, s.isPaused = false → s.state = GameState.playing →
      s.isRecording = true → s.gameStarted = true →
      ¬(s.currentLevel = Level.underfitting ∧ 50 ≤ s.dataset.length) →
      (collectTick s pred).dataset =
          (match s.dataBuffer with
           | some b => s.dataset ++ [{ b with pressed := if s.jumpScheduled then 1 else 0 }]
           | none => s.dataset) ∧
        (collectTick s pred).dataBuffer = some (getCurrentData s) ∧
        (collectTick s pred).jumpScheduled = false) ∧
    (∀ pred : ℚ, s.isPaused = false → s.state = GameState.playing →
      s.isRecording = true → s.gameStarted = true →
      s.currentLevel = Level.underfitting → 50 ≤ s.dataset.length →
      (collectTick s pred).isRecording = false ∧
        (collectTick s pred).dataset = s.dataset) ∧
    (∀ inputs : List (Bird × List Pipe × Bool × ℚ),
      s.isPaused = false → s.state = GameState.playing →
      s.isRecording = true → s.gameStarted = true →
      (s.currentLevel ≠ Level.underfitting ∨ inputs.length ≤ 50) →
      s.dataBuffer = none → s.jumpScheduled = false → s.dataset = [] →
      (runTicks inputs s).dataset = lagRows s inputs) := by
  refine ⟨fun pred hp hst hr hg hcap => ?_, fun pred hp hst hr hg hl h50 => ?_,
    fun inputs hp hst hr hg hl hbuf hjs hds => ?_⟩
  · obtain ⟨c1, c2, c3, _⟩ := collectTick_record s pred hp hst hr hg hcap
    exact ⟨c1, c2, c3⟩
  · obtain ⟨a1, a2, _⟩ := collectTick_cap_pause s pred hp hst hr hg hl h50
    exact ⟨a1, a2⟩
  · cases inputs with
    | nil => simpa [runTicks, lagRows] using hds
    | cons x rest =>
      obtain ⟨b, ps, j, pred⟩ := x
      have hlen0 : s.dataset.length = 0 := by rw [hds]; rfl
      have hcap :
          ¬(({ s with bird := b, pipes := ps, jumpScheduled := s.jumpScheduled || j } :
                EngineState μ).currentLevel = Level.underfitting ∧
            50 ≤ ({ s with bird := b, pipes := ps, jumpScheduled := s.jumpScheduled || j } :
                EngineState μ).dataset.length) := by
        intro hc
        have h2 : 50 ≤ s.dataset.length := hc.2
        omega
      obtain ⟨c1, c2, c3, c4, c5, c6, c7, c8, c9, c10⟩ :=
        collectTick_record
          { s with bird := b, pipes := ps, jumpScheduled := s.jumpScheduled || j } pred
          hp hst hr hg hcap
      have c1' :
          (collectTick { s with bird := b, pipes := ps, jumpScheduled := s.jumpScheduled || j }
              pred).dataset = s.dataset := by
        rw [c1, hbuf]
      have hl2 :
          (collectTick { s with bird := b, pipes := ps, jumpScheduled := s.jumpScheduled || j }
              pred).currentLevel ≠ Level.underfitting ∨
            (collectTick { s with bird := b, pipes := ps, jumpScheduled := s.jumpScheduled || j }
              pred).dataset.length + rest.length ≤ 50 := by
        rcases hl with hl | hl
        · left; rw [c8]; exact hl
        · right
          have hlen' :
              (collectTick
                  { s with bird := b, pipes := ps, jumpScheduled := s.jumpScheduled || j }
                  pred).dataset.length = s.dataset.length := by
            rw [c1']
          have hlc : ((b, ps, j, pred) :: rest).length = rest.length + 1 := rfl
          rw [hlc] at hl
          omega
      have step := runTicks_lagAux rest
        (collectTick { s with bird := b, pipes := ps, jumpScheduled := s.jumpScheduled || j }
          pred)
        (snapOf { s with bird := b, pipes := ps, jumpScheduled := s.jumpScheduled || j })
        c7 c5 c4 c6 hl2 c2 c3
      have hsnap :
          snapOf { s with bird := b, pipes := ps, jumpScheduled := s.jumpScheduled || j } =
            snapOf { s with bird := b, pipes := ps } :=
        snapOf_congr _ _ rfl rfl rfl rfl
      have hlag :
          lagAux
              (collectTick
                { s with bird := b, pipes := ps, jumpScheduled := s.jumpScheduled || j }
                pred)
              (snapOf { s with bird := b, pipes := ps }) rest =
            lagAux s (snapOf { s with bird := b, pipes := ps }) rest :=
        lagAux_congr
          (collectTick { s with bird := b, pipes := ps, jumpScheduled := s.jumpScheduled || j }
            pred)
          s (by exact c9) (by exact c10) rest _
      show (runTicks rest
          (collectTick { s with bird := b, pipes := ps, jumpScheduled := s.jumpScheduled || j }
            pred)).dataset = lagRows s ((b, ps, j, pred) :: rest)
      rw [step, c1', hsnap, hlag]
      simp only [lagRows]
      generalize lagAux s (snapOf { s with bird := b, pipes := ps }) rest = X
      rw [hds]
      simp

/-- C1, witness: three concrete ticks at the fine-tuning level with a
jump scheduled only in the interval entering the second tick yield
exactly two rows — the first tick's snapshot labelled 1, the second
tick's snapshot labelled 0 — and a tick on a capped underfitting round
pauses recording and appends nothing. -/
theorem claim_C1_witness :
    ((runTicks exTickInputs exRecording).dataset =
      [{ pressed := 1, y := 100, vel := 1, dist := 400, mid1 := 300, mid2 := 300 },
       { pressed := 0, y := 200, vel := 2, dist := 400, mid1 := 300, mid2 := 300 }]) ∧
    ((collectTick exCapped 0).isRecording = false ∧
      (collectTick exCapped 0).dataset = exCapped.dataset) := by
  constructor
  · rw [(claim_C1 exRecording).2.2 exTickInputs rfl rfl rfl rfl (Or.inl (by decide)) rfl rfl
      rfl]
    norm_num [exTickInputs, lagRows, lagAux, snapOf, getNextPipe, exRecording, initialState,
      sortByX, insertByX]
  · exact (claim_C1 exCapped).2.1 0 rfl rfl rfl rfl rfl
      (by simp [exCapped, exRecording, initialState])

/-- Length of the stride-sampling loop's output: it takes one row per
stride position, stopping at `sampleSize`. -/
theorem strideLoop_length_aux (c0 : List GameData) (ss step : Nat) (hstep : 0 < step) :
    ∀ (n i : Nat) (acc : List GameData), c0.length - i ≤ n → acc.length ≤ ss →
      (strideLoop c0 ss step i acc).length =
        min ss (acc.length +
          (if i < c0.length then (c0.length - i - 1) / step + 1 else 0)) := by
  intro n
  induction n with
  | zero =>
    intro i acc hn hacc
    have hi : ¬ i < c0.length := by omega
    rw [strideLoop.eq_def, dif_neg (by omega : ¬(i < c0.length ∧ 0 < step)), if_neg hi]
    omega
  | succ n ihn =>
    intro i acc hn hacc
    by_cases hi : i < c0.length
    · rw [strideLoop.eq_def, dif_pos ⟨hi, hstep⟩]
      by_cases hfull : acc.length < ss
      · rw [if_pos hfull]
        have hrec := ihn (i + step) (acc ++ [c0.get ⟨i, hi⟩]) (by omega)
          (by simp only [List.length_append, List.length_singleton]; omega)
        rw [hrec]
        simp only [List.length_append, List.length_singleton]
        by_cases hi2 : i + step < c0.length
        · rw [if_pos hi2, if_pos hi]
          have hle : step ≤ c0.length - i - 1 := by omega
          have hsub : c0.length - i - 1 - step = c0.length - (i + step) - 1 := by omega
          have hdiv : (c0.length - i - 1) / step = (c0.length - (i + step) - 1) / step + 1 := by
            rw [Nat.div_eq_sub_div hstep hle, hsub]
          omega
        · rw [if_neg hi2, if_pos hi]
          have hdiv : (c0.length - i - 1) / step = 0 := Nat.div_eq_of_lt (by omega)
          omega
      · rw [if_neg hfull]
        rw [ihn (i + step) acc (by omega) hacc]
        omega
    · rw [strideLoop.eq_def, dif_neg (by omega : ¬(i < c0.length ∧ 0 < step)), if_neg hi]
      omega

/-- Every row the stride-sampling loop emits comes from its accumulator or
from the negative class it walks. -/
theorem strideLoop_mem_aux (c0 : List GameData) (ss step : Nat) :
    ∀ (n i : Nat) (acc : List GameData) (x : GameData), c0.length - i ≤ n →
      x ∈ strideLoop c0 ss step i acc → x ∈ acc ∨ x ∈ c0 := by
  intro n
  induction n with
  | zero =>
    intro i acc x hn hx
    rw [strideLoop.eq_def, dif_neg (by omega : ¬(i < c0.length ∧ 0 < step))] at hx
    exact Or.inl hx
  | succ n ihn =>
    intro i acc x hn hx
    by_cases hc : i < c0.length ∧ 0 < step
    · rw [strideLoop.eq_def, dif_pos hc] at hx
      rcases ihn (i + step) _ x (by omega) hx with h | h
      · by_cases hfull : acc.length < ss
        · rw [if_pos hfull] at h
          rcases List.mem_append.mp h with h' | h'
          · exact Or.inl h'
          · right
            have hx0 : x = c0.get ⟨i, hc.1⟩ := by simpa using h'
            rw [hx0]
            exact List.get_mem c0 i hc.1
        · rw [if_neg hfull] at h
          exact Or.inl h
      · exact Or.inr h
    · rw [strideLoop.eq_def, dif_neg hc] at hx
      exact Or.inl hx

/-- The trainer's `Math.floor(count1 * Math.min(2, count0 / count1))`
sample size is `min (2 * count1) count0` in exact arithmetic. -/
theorem sampleSize_eq (a b : Nat) (hb : 0 < b) :
    (⌊(b : ℚ) * min 2 ((a : ℚ) / (b : ℚ))⌋).toNat = min (2 * b) a := by
  have hbq : (0 : ℚ) < (b : ℚ) := by exact_mod_cast hb
  rcases le_or_lt (2 * b) a with h | h
  · have h2 : (2 : ℚ) ≤ (a : ℚ) / (b : ℚ) := by
      rw [le_div_iff₀ hbq]
      have : ((2 * b : ℕ) : ℚ) ≤ ((a : ℕ) : ℚ) := by exact_mod_cast h
      push_cast at this
      linarith
    rw [min_eq_left h2]
    have : (b : ℚ) * 2 = ((2 * b : ℕ) : ℚ) := by push_cast; ring
    rw [this, Int.floor_natCast]
    simp only [Int.toNat_natCast]
    omega
  · have h2 : (a : ℚ) / (b : ℚ) < 2 := by
      rw [div_lt_iff₀ hbq]
      have : ((a : ℕ) : ℚ) < ((2 * b : ℕ) : ℚ) := by exact_mod_cast h
      push_cast at this
      linarith
    rw [min_eq_right (le_of_lt h2)]
    have : (b : ℚ) * ((a : ℚ) / (b : ℚ)) = ((a : ℕ) : ℚ) := by
      field_simp
    rw [this, Int.floor_natCast]
    simp only [Int.toNat_natCast]
    omega

/-- The stride-sampling loop, called as the trainer calls it (start index
0, empty accumulator, stride `count0 / N`), returns exactly `N` rows, all
drawn from the negative class, whenever `N ≤ count0`. -/
theorem strideSample_spec (c0 : List GameData) (N : Nat) (hNle : N ≤ c0.length) :
    (strideLoop c0 N (c0.length / N) 0 []).length = N ∧
      ∀ x ∈ strideLoop c0 N (c0.length / N) 0 [], x ∈ c0 := by
  constructor
  · rcases Nat.eq_zero_or_pos N with h0 | hNpos
    · subst h0
      have hdv : c0.length / 0 = 0 := Nat.div_zero _
      rw [strideLoop.eq_def, dif_neg (by omega : ¬((0:Nat) < c0.length ∧ 0 < c0.length / 0))]
      rfl
    · have h0 : 0 < c0.length := lt_of_lt_of_le hNpos hNle
      have hstep : 0 < c0.length / N := Nat.div_pos hNle hNpos
      rw [strideLoop_length_aux c0 N (c0.length / N) hstep c0.length 0 [] (by omega) (by simp)]
      rw [if_pos h0]
      have hmul : c0.length / N * N ≤ c0.length := Nat.div_mul_le_self _ _
      have e1 : (N - 1) * (c0.length / N) + (c0.length / N) = N * (c0.length / N) := by
        rcases N with _ | n
        · omega
        · exact (Nat.succ_mul n _).symm
      have e2 : N * (c0.length / N) = c0.length / N * N := Nat.mul_comm _ _
      have hsub : (N - 1) * (c0.length / N) ≤ c0.length - 1 := by omega
      have hdivle : N - 1 ≤ (c0.length - 1) / (c0.length / N) :=
        (Nat.le_div_iff_mul_le hstep).mpr hsub
      have hz : c0.length - 0 - 1 = c0.length - 1 := by omega
      rw [hz]
      simp only [List.length_nil, Nat.zero_add]
      omega
  · intro x hx
    rcases strideLoop_mem_aux c0 N (c0.length / N) c0.length 0 [] x (by omega) hx with h | h
    · exact absurd h (List.not_mem_nil x)
    · exact h

/-- C3: with at least one positive row, the balanced set handed to the
shuffle is the strided negative sample followed by every positive row
(with matching `[0]`/`[1]` labels); the negative sample has exactly
`floor(count1 * min(2, count0 / count1))` rows, hence at most twice the
positive count, and each of its rows comes from the negative class.  With
no positive row, balancing fails with the "no jump actions recorded"
error. -/
theorem claim_C3 (ds : List GameData) (ch cw : ℚ) :
    (0 < (ds.filter fun d => d.pressed = 1).length →
      ∃ neg,
        balanceDataset ds ch cw =
          Except.ok
            (neg ++ (ds.filter fun d => d.pressed = 1).map (normRow ch cw),
             (neg.map fun _ => [(0 : ℚ)]) ++
               (ds.filter fun d => d.pressed = 1).map fun _ => [(1 : ℚ)]) ∧
        neg.length =
          (⌊((ds.filter fun d => d.pressed = 1).length : ℚ) *
              min 2 (((ds.filter fun d => d.pressed = 0).length : ℚ) /
                ((ds.filter fun d => d.pressed = 1).length : ℚ))⌋).toNat ∧
        neg.length ≤ 2 * (ds.filter fun d => d.pressed = 1).length ∧
        ∀ v ∈ neg, v ∈ (ds.filter fun d => d.pressed = 0).map (normRow ch cw)) ∧
    ((ds.filter fun d => d.pressed = 1).length = 0 →
      balanceDataset ds ch cw =
        Except.error "No jump actions recorded! Please record some gameplay with jumps.") := by
  constructor
  · intro h
    have hN := sampleSize_eq (ds.filter fun d => d.pressed = 0).length
      (ds.filter fun d => d.pressed = 1).length h
    obtain ⟨hlen, hmem⟩ := strideSample_spec (ds.filter fun d => d.pressed = 0)
      ((⌊((ds.filter fun d => d.pressed = 1).length : ℚ) *
          min 2 (((ds.filter fun d => d.pressed = 0).length : ℚ) /
            ((ds.filter fun d => d.pressed = 1).length : ℚ))⌋).toNat)
      (by rw [hN]; omega)
    refine ⟨(strideLoop (ds.filter fun d => d.pressed = 0)
        ((⌊((ds.filter fun d => d.pressed = 1).length : ℚ) *
            min 2 (((ds.filter fun d => d.pressed = 0).length : ℚ) /
              ((ds.filter fun d => d.pressed = 1).length : ℚ))⌋).toNat)
        ((ds.filter fun d => d.pressed = 0).length /
          (⌊((ds.filter fun d => d.pressed = 1).length : ℚ) *
            min 2 (((ds.filter fun d => d.pressed = 0).length : ℚ) /
              ((ds.filter fun d => d.pressed = 1).length : ℚ))⌋).toNat)
        0 []).map (normRow ch cw), ?_, ?_, ?_, ?_⟩
    · simp only [balanceDataset]
      rw [if_pos h]
      simp [List.map_map, Function.comp_def]
    · rw [List.length_map, hlen]
    · rw [List.length_map, hlen, hN]
      omega
    · intro v hv
      rcases List.mem_map.mp hv with ⟨x, hx, hvx⟩
      exact hvx ▸ List.mem_map_of_mem (normRow ch cw) (hmem x hx)
  · intro h0
    simp only [balanceDataset]
    rw [if_neg (by omega)]

/-- C3, witness: on a five-row dataset with three negative and two
positive rows, balancing keeps both positives and samples
`floor(2 * min(2, 3/2)) = 3` negatives (at most `2 * 2`), all from the
negative class. -/
theorem claim_C3_witness :
    ∃ neg,
      balanceDataset exBalanceDs 600 400 =
        Except.ok
          (neg ++ (exBalanceDs.filter fun d => d.pressed = 1).map (normRow 600 400),
           (neg.map fun _ => [(0 : ℚ)]) ++
             (exBalanceDs.filter fun d => d.pressed = 1).map fun _ => [(1 : ℚ)]) ∧
      neg.length =
        (⌊((exBalanceDs.filter fun d => d.pressed = 1).length : ℚ) *
            min 2 (((exBalanceDs.filter fun d => d.pressed = 0).length : ℚ) /
              ((exBalanceDs.filter fun d => d.pressed = 1).length : ℚ))⌋).toNat ∧
      neg.length ≤ 2 * (exBalanceDs.filter fun d => d.pressed = 1).length ∧
      ∀ v ∈ neg, v ∈ (exBalanceDs.filter fun d => d.pressed = 0).map (normRow 600 400) :=
  (claim_C3 exBalanceDs 600 400).1 (by decide)

/-- At the underfitting level a single recording tick never pushes the
dataset past 50 rows, and it keeps the level. -/
theorem collectTick_underfit_le {μ : Type} (s : EngineState μ) (pred : ℚ)
    (hl : s.currentLevel = Level.underfitting) (hle : s.dataset.length ≤ 50) :
    (collectTick s pred).dataset.length ≤ 50 ∧
      (collectTick s pred).currentLevel = Level.underfitting := by
  by_cases h1 : s.isPaused = true ∨ s.state ≠ GameState.playing
  · have e : collectTick s pred = s := by
      simp only [collectTick]
      rw [if_pos h1]
    rw [e]
    exact ⟨hle, hl⟩
  · by_cases h2 : s.isRecording = true ∧ s.gameStarted = true
    · by_cases h3 : s.currentLevel = Level.underfitting ∧ 50 ≤ s.dataset.length
      · have e : collectTick s pred =
            (if (pauseRecording s).isAI ∧ (pauseRecording s).model.isSome
             then makeAIPrediction (pauseRecording s) pred else pauseRecording s) := by
          simp only [collectTick]
          rw [if_neg h1, if_pos h3, if_pos h2]
        by_cases hAI : (pauseRecording s).isAI ∧ (pauseRecording s).model.isSome
        · rw [e, if_pos hAI]
          obtain ⟨d1, _, _, _, _, _, _, d8, _, _⟩ :=
            makeAIPrediction_preserves (pauseRecording s) pred
          rw [d1, d8]
          exact ⟨hle, hl⟩
        · rw [e, if_neg hAI]
          exact ⟨hle, hl⟩
      · have e : collectTick s pred =
            (if (recordStep s).isAI ∧ (recordStep s).model.isSome
             then makeAIPrediction (recordStep s) pred else recordStep s) := by
          simp only [collectTick]
          rw [if_neg h1, if_neg h3, if_pos h2]
        have hlen : (recordStep s).dataset.length ≤ 50 := by
          have hlt : s.dataset.length < 50 := by
            rcases Nat.lt_or_ge s.dataset.length 50 with h | h
            · exact h
            · exact absurd ⟨hl, h⟩ h3
          simp only [recordStep]
          cases hb : s.dataBuffer <;> simp [hb] <;> omega
        have hlev : (recordStep s).currentLevel = Level.underfitting := hl
        by_cases hAI : (recordStep s).isAI ∧ (recordStep s).model.isSome
        · rw [e, if_pos hAI]
          obtain ⟨d1, _, _, _, _, _, _, d8, _, _⟩ :=
            makeAIPrediction_preserves (recordStep s) pred
          rw [d1, d8]
          exact ⟨hlen, hlev⟩
        · rw [e, if_neg hAI]
          exact ⟨hlen, hlev⟩
    · have e : collectTick s pred =
          (if s.isAI ∧ s.model.isSome then makeAIPrediction s pred else s) := by
        simp only [collectTick]
        rw [if_neg h1, if_neg h2]
      by_cases hAI : s.isAI ∧ s.model.isSome
      · rw [e, if_pos hAI]
        obtain ⟨d1, _, _, _, _, _, _, d8, _, _⟩ := makeAIPrediction_preserves s pred
        rw [d1, d8]
        exact ⟨hle, hl⟩
      · rw [e, if_neg hAI]
        exact ⟨hle, hl⟩

/-- At the underfitting level no scripted tick sequence drives the dataset
past 50 rows. -/
theorem runTicks_underfit_le {μ : Type} :
    ∀ (inputs : List (Bird × List Pipe × Bool × ℚ)) (s : EngineState μ),
      s.currentLevel = Level.underfitting → s.dataset.length ≤ 50 →
      (runTicks inputs s).dataset.length ≤ 50 := by
  intro inputs
  induction inputs with
  | nil => intro s _ hle; exact hle
  | cons x rest ih =>
    intro s hl hle
    obtain ⟨b, ps, j, pred⟩ := x
    obtain ⟨h1, h2⟩ := collectTick_underfit_le
      { s with bird := b, pipes := ps, jumpScheduled := s.jumpScheduled || j } pred hl hle
    exact ih _ h2 h1

/-- C6: at the underfitting level the recording tick never grows the
dataset beyond 50 rows — any tick sequence started at ≤ 50 rows stays at
≤ 50 — and a tick that fires with exactly 50 rows while actively
recording pauses recording and appends nothing. -/
theorem claim_C6 {μ : Type} (s : EngineState μ)
    (hl : s.currentLevel = Level.underfitting) :
    (s.dataset.length ≤ 50 →
      ∀ inputs : List (Bird × List Pipe × Bool × ℚ),
        (runTicks inputs s).dataset.length ≤ 50) ∧
    (s.dataset.length = 50 → s.isRecording = true → s.state = GameState.playing →
      s.gameStarted = true → s.isPaused = false → ∀ pred : ℚ,
        (collectTick s pred).isRecording = false ∧
        (collectTick s pred).dataset = s.dataset) := by
  constructor
  · intro hle inputs
    exact runTicks_underfit_le inputs s hl hle
  · intro h50 hr hst hg hp pred
    have h1 : ¬(s.isPaused = true ∨ s.state ≠ GameState.playing) := by
      simp [hp, hst]
    have h3 : s.currentLevel = Level.underfitting ∧ 50 ≤ s.dataset.length :=
      ⟨hl, le_of_eq h50.symm⟩
    have h2 : s.isRecording = true ∧ s.gameStarted = true := ⟨hr, hg⟩
    have e : collectTick s pred =
        (if (pauseRecording s).isAI ∧ (pauseRecording s).model.isSome
         then makeAIPrediction (pauseRecording s) pred else pauseRecording s) := by
      simp only [collectTick]
      rw [if_neg h1, if_pos h3, if_pos h2]
    by_cases hAI : (pauseRecording s).isAI ∧ (pauseRecording s).model.isSome
    · rw [e, if_pos hAI]
      obtain ⟨d1, _, _, d4, _, _, _, _, _, _⟩ :=
        makeAIPrediction_preserves (pauseRecording s) pred
      rw [d1, d4]
      exact ⟨rfl, rfl⟩
    · rw [e, if_neg hAI]
      exact ⟨rfl, rfl⟩

/-- C6, witness: a recording tick on an underfitting-level engine whose
dataset already holds exactly 50 rows pauses recording and leaves the
dataset untouched. -/
theorem claim_C6_witness :
    (collectTick exCapped 0).isRecording = false ∧
      (collectTick exCapped 0).dataset = exCapped.dataset :=
  (claim_C6 exCapped rfl).2 (by simp [exCapped, exRecording, initialState]) rfl rfl rfl rfl 0

/-- C4, counterexample: `setLevel` does not null the model — on an engine
holding a trained model, the model survives a level switch unchanged. -/
theorem claim_C4_counterexample :
    (setLevel exWithModel Level.underfitting).model ≠ none := by decide

/-- C4 (amended): `restart` sets the model reference to `null`, but
`setLevel` leaves the model reference untouched (it only changes the
level, resets the fixed gap center, and force-stops recording); the model
becomes `null` on a level switch only because the UI layer calls
`restart` right after `setLevel`. -/
theorem claim_C4 {μ : Type} (s : EngineState μ) (level : Level) :
    (restart s).model = none ∧ (setLevel s level).model = s.model ∧
      (setLevel s level).isRecording = false :=
  ⟨rfl, rfl, rfl⟩

/-- C5, counterexample: in the overfitting level with the AI as actor, the
obstacle created at round start is pinned to the session's fixed gap
center (here 300) for every random draw — with draw 0 a random spawn
would have gap center 150, so the AI-path round-start spawn is not random
per spawn. -/
theorem claim_C5_counterexample :
    ((startGame exOverfitAI 0).pipes.map Pipe.gapCenter = [(300 : ℚ)]) ∧
      ((0 : ℚ) * (600 - 300) + 150 ≠ 300) := by
  refine ⟨?_, by norm_num⟩
  norm_num [startGame, exOverfitAI, initialState, Pipe.make]

/-- C5 (amended): the round-start obstacle is pinned to the fixed gap
center in the overfitting level regardless of the actor (and random
otherwise), while obstacles spawned during `update` are pinned exactly in
the overfitting level with a human actor and random in every other case. -/
theorem claim_C5 {μ : Type} (s : EngineState μ) (r : ℚ) :
    ((startGame s r).pipes.map Pipe.gapCenter =
      [if s.currentLevel = Level.overfitting then s.fixedGapCenter
       else r * (s.canvasHeight - 300) + 150]) ∧
    ((spawnedPipe s r).gapCenter =
      if s.currentLevel = Level.overfitting ∧ s.isAI = false then s.fixedGapCenter
      else r * (s.canvasHeight - 300) + 150) := by
  constructor
  · by_cases h : s.currentLevel = Level.overfitting <;>
      simp [startGame, Pipe.make, h]
  · by_cases h : s.currentLevel = Level.overfitting <;>
      by_cases h2 : s.isAI <;> simp [spawnedPipe, Pipe.make, h, h2]

/-- C7: every AI prediction tick jumps exactly when the model output
strictly exceeds the adaptive threshold (0.7 while fewer than 10 ticks
since the last jump, else 0.5), resetting the ticks-since-last-jump
counter on a jump and incrementing it otherwise; in particular output 0.6
does not jump below 10 ticks and does jump at 10 or more. -/
theorem claim_C7 {μ : Type} (s : EngineState μ) (pred : ℚ) :
    (pred > (if s.framesSinceLastJump < 10 then (7 : ℚ)/10 else 1/2) →
      makeAIPrediction s pred =
        { s with aiPredictionCount := s.aiPredictionCount + 1,
                 bird := { s.bird with velY := s.jumpStrength },
                 framesSinceLastJump := 0 }) ∧
    (¬ pred > (if s.framesSinceLastJump < 10 then (7 : ℚ)/10 else 1/2) →
      makeAIPrediction s pred =
        { s with aiPredictionCount := s.aiPredictionCount + 1,
                 framesSinceLastJump := s.framesSinceLastJump + 1 }) ∧
    (s.framesSinceLastJump < 10 →
      (makeAIPrediction s (6/10)).framesSinceLastJump = s.framesSinceLastJump + 1 ∧
      (makeAIPrediction s (6/10)).bird = s.bird) ∧
    (10 ≤ s.framesSinceLastJump →
      (makeAIPrediction s (6/10)).framesSinceLastJump = 0 ∧
      (makeAIPrediction s (6/10)).bird.velY = s.jumpStrength) := by
  refine ⟨fun h => ?_, fun h => ?_, fun h => ?_, fun h => ?_⟩
  · simp only [makeAIPrediction, if_pos h]
  · simp only [makeAIPrediction, if_neg h]
  · have hth : ¬ ((6 : ℚ)/10 > (if s.framesSinceLastJump < 10 then (7 : ℚ)/10 else 1/2)) := by
      rw [if_pos h]; norm_num
    have e : makeAIPrediction s (6/10) =
        { s with aiPredictionCount := s.aiPredictionCount + 1,
                 framesSinceLastJump := s.framesSinceLastJump + 1 } := by
      simp only [makeAIPrediction, if_neg hth]
    exact ⟨by rw [e], by rw [e]⟩
  · have hth : (6 : ℚ)/10 > (if s.framesSinceLastJump < 10 then (7 : ℚ)/10 else 1/2) := by
      rw [if_neg (by omega)]; norm_num
    have e : makeAIPrediction s (6/10) =
        { s with aiPredictionCount := s.aiPredictionCount + 1,
                 bird := { s.bird with velY := s.jumpStrength },
                 framesSinceLastJump := 0 } := by
      simp only [makeAIPrediction, if_pos hth]
    exact ⟨by rw [e], by rw [e]⟩

/-- C7, witness: at 9 ticks since the last jump an output of 0.6 does not
jump; at 10 it does. -/
theorem claim_C7_witness :
    ((makeAIPrediction { exRecording with framesSinceLastJump := 9 } (6/10)).framesSinceLastJump
        = 10) ∧
    ((makeAIPrediction { exRecording with framesSinceLastJump := 10 } (6/10)).framesSinceLastJump
        = 0) :=
  ⟨((claim_C7 { exRecording with framesSinceLastJump := 9 } (6/10)).2.2.1 (by decide)).1,
   ((claim_C7 { exRecording with framesSinceLastJump := 10 } (6/10)).2.2.2 (by decide)).1⟩

/-- C10: `stopAI` during a playing round clears the AI flag and ends the
round through `endGame` — state `"dead"`, time of death recorded, high
score raised when beaten — and, because the AI flag was cleared first, no
auto-restart is scheduled; in any other state it only clears the AI flag. -/
theorem claim_C10 {μ : Type} (s : EngineState μ) (now : ℚ) :
    (s.state = GameState.playing →
      stopAI s now =
        ({ s with isAI := false, state := GameState.dead, gameOverTime := now,
                  highScore := if s.score > s.highScore then s.score else s.highScore },
         false)) ∧
    (s.state ≠ GameState.playing → stopAI s now = ({ s with isAI := false }, false)) := by
  constructor
  · intro h
    simp only [stopAI, endGame, h, if_pos rfl]
    by_cases hs : s.score > s.highScore <;> simp [hs]
  · intro h
    simp only [stopAI]
    rw [if_neg (by simpa using h)]

/-- C10, witness: stopping the AI mid-round at time 42 with score 5
against high score 3 ends the round, records the time, raises the high
score, and schedules no restart; stopping it in the menu only clears the
flag. -/
theorem claim_C10_witness :
    (stopAI { exOverfitAI with state := GameState.playing, score := 5, highScore := 3 } 42 =
      ({ exOverfitAI with state := GameState.dead, score := 5, highScore := 5,
                          gameOverTime := 42, isAI := false }, false)) ∧
    (stopAI exOverfitAI 42 = ({ exOverfitAI with isAI := false }, false)) := by
  constructor
  · rw [(claim_C10 { exOverfitAI with state := GameState.playing, score := 5, highScore := 3 }
        42).1 rfl]
    rfl
  · rw [(claim_C10 exOverfitAI 42).2 (by decide)]

/-- C2, counterexample: with no upcoming obstacle and the bird at y = 100
on a 400×600 canvas, the trainer's normalization of `getCurrentData` (the
recording-time pipeline) substitutes half-height defaults (mid entries
1/2) while `getRawFeatures` (the inference-time pipeline) substitutes the
bird's own normalized y (1/6), so the two feature vectors differ. -/
theorem claim_C2_counterexample :
    normRow 600 400 (getCurrentData exNoPipe) ≠ getRawFeatures exNoPipe := by
  norm_num [normRow, getCurrentData, snapOf, getRawFeatures, getNextPipe, exNoPipe,
    initialState, Bird.init, sortByX, insertByX]

/-- C2 (amended): the recording-time feature vector (raw `getCurrentData`
snapshot normalized by the trainer) coincides with the inference-time
`getRawFeatures` vector whenever both a next and a next-next obstacle
exist; when one is missing the two pipelines substitute different neutral
defaults (half the playfield height vs. the bird's own y), so they agree
only if the bird sits at exactly half the canvas height. -/
theorem claim_C2 {μ : Type} (s : EngineState μ)
    (h0 : (getNextPipe s 0).isSome) (h1 : (getNextPipe s 1).isSome) :
    normRow s.canvasHeight s.canvasWidth (getCurrentData s) = getRawFeatures s := by
  obtain ⟨p0, hp0⟩ := Option.isSome_iff_exists.mp h0
  obtain ⟨p1, hp1⟩ := Option.isSome_iff_exists.mp h1
  simp [getCurrentData, snapOf, getRawFeatures, normRow, hp0, hp1]

/-- C2, witness: on an engine with two upcoming pipes the two pipelines
produce the same 5-vector. -/
theorem claim_C2_witness :
    ((getNextPipe exTwoPipes 0).isSome ∧ (getNextPipe exTwoPipes 1).isSome) ∧
      normRow 600 400 (getCurrentData exTwoPipes) = getRawFeatures exTwoPipes := by
  have h0 : (getNextPipe exTwoPipes 0).isSome := by
    norm_num [getNextPipe, exTwoPipes, initialState, Bird.init, sortByX, insertByX]
  have h1 : (getNextPipe exTwoPipes 1).isSome := by
    norm_num [getNextPipe, exTwoPipes, initialState, Bird.init, sortByX, insertByX]
  exact ⟨⟨h0, h1⟩, claim_C2 exTwoPipes h0 h1⟩

/-- The import loop's skip-or-parse step, as a filter followed by a map:
a data line contributes exactly when it is not all-whitespace and splits
into six fields. -/
theorem uploadParse_filterMap (ls : List (List Char)) :
    (ls.filterMap fun l =>
      if l.all Char.isWhitespace then none
      else
        let vs := jsSplit ',' l
        if vs.length = 6 then some (parseRowVals vs) else none) =
    (ls.filter fun l =>
        ¬ l.all Char.isWhitespace ∧ (jsSplit ',' l).length = 6).map
      fun l => parseRowVals (jsSplit ',' l) := by
  set f : List Char → Option GameData := fun l =>
    if l.all Char.isWhitespace then none
    else
      let vs := jsSplit ',' l
      if vs.length = 6 then some (parseRowVals vs) else none with hf
  induction ls with
  | nil => rfl
  | cons a ls ih =>
    by_cases h1 : a.all Char.isWhitespace
    · have hfa : f a = none := by rw [hf]; simp [h1]
      rw [List.filterMap_cons_none hfa, List.filter_cons_of_neg (by simp [h1])]
      exact ih
    · by_cases h2 : (jsSplit ',' a).length = 6
      · have hfa : f a = some (parseRowVals (jsSplit ',' a)) := by rw [hf]; simp [h1, h2]
        rw [List.filterMap_cons_some hfa, List.filter_cons_of_pos (by simp [h1, h2]),
          List.map_cons, ih]
      · have hfa : f a = none := by rw [hf]; simp [h1, h2]
        rw [List.filterMap_cons_none hfa, List.filter_cons_of_neg (by simp [h1, h2])]
        exact ih

/-- C8: a CSV import whose re-joined split header differs from
`pressed,y,vel,dist,mid1,mid2` fails with the dataset untouched; with the
header right, exactly the non-blank six-field lines are parsed and
appended in order, and an import in which no line qualifies fails with
the dataset untouched. -/
theorem claim_C8 {μ : Type} (s : EngineState μ) (text : List Char) :
    (joinSep ',' (jsSplit ',' ((jsSplit '\n' text).getD 0 [])) ≠ headerChars →
      uploadCSV s text = (s, false)) ∧
    (joinSep ',' (jsSplit ',' ((jsSplit '\n' text).getD 0 [])) = headerChars →
      (((jsSplit '\n' text).drop 1).filter fun l =>
          ¬ l.all Char.isWhitespace ∧ (jsSplit ',' l).length = 6) = [] →
      uploadCSV s text = (s, false)) ∧
    (joinSep ',' (jsSplit ',' ((jsSplit '\n' text).getD 0 [])) = headerChars →
      (((jsSplit '\n' text).drop 1).filter fun l =>
          ¬ l.all Char.isWhitespace ∧ (jsSplit ',' l).length = 6) ≠ [] →
      uploadCSV s text =
        ({ s with
            dataset := s.dataset ++
              ((((jsSplit '\n' text).drop 1).filter fun l =>
                  ¬ l.all Char.isWhitespace ∧ (jsSplit ',' l).length = 6).map
                fun l => parseRowVals (jsSplit ',' l)) }, true)) := by
  refine ⟨fun hbad => ?_, fun hok hempty => ?_, fun hok hne => ?_⟩
  · have e : uploadParse text = Except.error "Invalid CSV format" := by
      simp only [uploadParse]
      rw [if_pos hbad]
    simp [uploadCSV, e]
  · have e : uploadParse text = Except.error "No valid data found" := by
      simp only [uploadParse]
      rw [if_neg (by simpa using hok), uploadParse_filterMap, hempty]
      simp
    simp [uploadCSV, e]
  · have e : uploadParse text =
        Except.ok ((((jsSplit '\n' text).drop 1).filter fun l =>
            ¬ l.all Char.isWhitespace ∧ (jsSplit ',' l).length = 6).map
          fun l => parseRowVals (jsSplit ',' l)) := by
      simp only [uploadParse]
      rw [if_neg (by simpa using hok), uploadParse_filterMap]
      rw [if_pos (by
        have := List.length_pos.mpr hne
        simpa using this)]
    simp [uploadCSV, e]

/-- C8, witness: importing a file with the right header, one well-formed
line, one malformed line and one blank line appends exactly the
well-formed line's row; importing a wrong-header file changes nothing. -/
theorem claim_C8_witness :
    (uploadCSV exRecording exCSVText =
      ({ exRecording with
          dataset := exRecording.dataset ++
            ((((jsSplit '\n' exCSVText).drop 1).filter fun l =>
                ¬ l.all Char.isWhitespace ∧ (jsSplit ',' l).length = 6).map
              fun l => parseRowVals (jsSplit ',' l)) }, true)) ∧
    (uploadCSV exRecording exCSVBad = (exRecording, false)) :=
  ⟨(claim_C8 exRecording exCSVText).2.2 (by decide) (by decide),
   (claim_C8 exRecording exCSVBad).1 (by decide)⟩

/-- Splitting via `jsSplit` always yields at least one piece. -/
theorem jsSplit_ne_nil (sep : Char) : ∀ s : List Char, jsSplit sep s ≠ [] := by
  intro s
  induction s with
  | nil => simp [jsSplit]
  | cons c cs ih =>
    by_cases h : c = sep
    · simp [jsSplit, h]
    · simp only [jsSplit, if_neg h]
      cases hs : jsSplit sep cs with
      | nil => simp
      | cons p rest => simp

/-- Splitting a separator-free string yields that one piece. -/
theorem jsSplit_of_not_mem (sep : Char) :
    ∀ s : List Char, sep ∉ s → jsSplit sep s = [s] := by
  intro s
  induction s with
  | nil => intro _; rfl
  | cons c cs ih =>
    intro h
    have hc : ¬ c = sep := fun hcs => h (hcs ▸ List.mem_cons_self c cs)
    have hcs : sep ∉ cs := fun hm => h (List.mem_cons_of_mem c hm)
    simp only [jsSplit, if_neg hc, ih hcs]

/-- Splitting past a separator-free prefix peels off that prefix. -/
theorem jsSplit_append (sep : Char) :
    ∀ xs ys : List Char, sep ∉ xs →
      jsSplit sep (xs ++ sep :: ys) = xs :: jsSplit sep ys := by
  intro xs
  induction xs with
  | nil => intro ys _; simp [jsSplit]
  | cons c cs ih =>
    intro ys h
    have hc : ¬ c = sep := fun hcs => h (hcs ▸ List.mem_cons_self c cs)
    have hcs : sep ∉ cs := fun hm => h (List.mem_cons_of_mem c hm)
    have e : (c :: cs) ++ sep :: ys = c :: (cs ++ sep :: ys) := rfl
    rw [e]
    simp only [jsSplit, if_neg hc]
    rw [ih ys hcs]

/-- Splitting a separator-joined list of separator-free pieces recovers
the pieces. -/
theorem jsSplit_joinSep (sep : Char) :
    ∀ pieces : List (List Char), pieces ≠ [] → (∀ p ∈ pieces, sep ∉ p) →
      jsSplit sep (joinSep sep pieces) = pieces := by
  intro pieces
  induction pieces with
  | nil => intro h _; exact absurd rfl h
  | cons p rest ih =>
    intro _ h
    cases rest with
    | nil =>
      exact jsSplit_of_not_mem sep p (h p (List.mem_cons_self p []))
    | cons q rest2 =>
      have : joinSep sep (p :: q :: rest2) = p ++ sep :: joinSep sep (q :: rest2) := rfl
      rw [this, jsSplit_append sep p _ (h p (List.mem_cons_self p _))]
      rw [ih (by simp) (fun x hx => h x (List.mem_cons_of_mem p hx))]

/-- Re-joining a split recovers the original string (the `uploadCSV`
header check `headers.join(",")` is the identity on the header line). -/
theorem joinSep_jsSplit (sep : Char) :
    ∀ s : List Char, joinSep sep (jsSplit sep s) = s := by
  intro s
  induction s with
  | nil => rfl
  | cons c cs ih =>
    by_cases h : c = sep
    · subst h
      have e : jsSplit c (c :: cs) = [] :: jsSplit c cs := by simp [jsSplit]
      rw [e]
      cases hs : jsSplit c cs with
      | nil => exact absurd hs (jsSplit_ne_nil c cs)
      | cons p rest =>
        have e2 : joinSep c ([] :: p :: rest) = [] ++ c :: joinSep c (p :: rest) := rfl
        rw [e2, ← hs, ih]
        rfl
    · simp only [jsSplit, if_neg h]
      cases hs : jsSplit sep cs with
      | nil => exact absurd hs (jsSplit_ne_nil sep cs)
      | cons p rest =>
        cases rest with
        | nil =>
          have : joinSep sep [c :: p] = c :: p := rfl
          rw [this]
          have hp : joinSep sep [p] = p := rfl
          rw [hs] at ih
          rw [hp] at ih
          rw [ih]
        | cons q rest2 =>
          have : joinSep sep ((c :: p) :: q :: rest2) =
              (c :: p) ++ sep :: joinSep sep (q :: rest2) := rfl
          rw [this]
          rw [hs] at ih
          have : joinSep sep (p :: q :: rest2) = p ++ sep :: joinSep sep (q :: rest2) := rfl
          rw [this] at ih
          simp only [List.cons_append]
          rw [ih]

/-- A digit character's code point. -/
theorem digitChar_toNat (d : Nat) (h : d < 10) : (digitChar d).toNat = 48 + d := by
  interval_cases d <;> decide

/-- Digit characters are digits. -/
theorem digitChar_isDigit (d : Nat) (h : d < 10) : (digitChar d).isDigit = true := by
  interval_cases d <;> decide

/-- A digit character is none of the CSV structural characters. -/
theorem isDigit_props (c : Char) (h : c.isDigit = true) :
    c.isWhitespace = false ∧ c ≠ ',' ∧ c ≠ '\n' ∧ c ≠ '.' ∧ c ≠ '-' ∧ c ≠ '+' := by
  refine ⟨?_, ?_, ?_, ?_, ?_, ?_⟩
  · cases hw : c.isWhitespace
    · rfl
    · exfalso
      simp only [Char.isWhitespace, Bool.or_eq_true, decide_eq_true_eq] at hw
      rcases hw with ((h1 | h1) | h1) | h1 <;> rw [h1] at h <;> exact absurd h (by decide)
  all_goals
    intro hEq
    rw [hEq] at h
    exact absurd h (by decide)

/-- Rendering `natDigits` never returns the empty string. -/
theorem natDigits_ne_nil (n : Nat) : natDigits n ≠ [] := by
  rw [natDigits.eq_def]
  split
  · simp
  · simp

/-- Every character of `natDigits` is a digit. -/
theorem natDigits_all_digits (n : Nat) : ∀ c ∈ natDigits n, c.isDigit = true := by
  induction n using Nat.strong_induction_on with
  | _ n ih =>
    intro c hc
    rw [natDigits.eq_def] at hc
    split at hc
    · next h =>
      simp only [List.mem_singleton] at hc
      subst hc
      exact digitChar_isDigit n h
    · next h =>
      rcases List.mem_append.mp hc with h' | h'
      · exact ih (n / 10) (Nat.div_lt_self (by omega) (by omega)) c h'
      · simp only [List.mem_singleton] at h'
        subst h'
        exact digitChar_isDigit (n % 10) (Nat.mod_lt n (by omega))

/-- Reading back the digits of `n` gives `n`. -/
theorem digitsVal_natDigits (n : Nat) : digitsVal (natDigits n) = n := by
  induction n using Nat.strong_induction_on with
  | _ n ih =>
    rw [natDigits.eq_def]
    split
    · next h =>
      simp only [digitsVal, List.foldl_cons, List.foldl_nil]
      rw [digitChar_toNat n h]
      omega
    · next h =>
      have hrec := ih (n / 10) (Nat.div_lt_self (by omega) (by omega))
      simp only [digitsVal, List.foldl_append, List.foldl_cons, List.foldl_nil]
      simp only [digitsVal] at hrec
      rw [hrec, digitChar_toNat (n % 10) (Nat.mod_lt n (by omega))]
      omega

/-- Taking with `takeWhile` walks through a prefix on which the predicate holds. -/
theorem takeWhile_append_all (p : Char → Bool) :
    ∀ xs ys : List Char, (∀ c ∈ xs, p c = true) →
      (xs ++ ys).takeWhile p = xs ++ ys.takeWhile p := by
  intro xs
  induction xs with
  | nil => intro ys _; rfl
  | cons c cs ih =>
    intro ys h
    have hc : p c = true := h c (List.mem_cons_self c cs)
    simp only [List.cons_append, List.takeWhile_cons, hc, if_true]
    rw [ih ys fun x hx => h x (List.mem_cons_of_mem c hx)]

/-- Dropping with `dropWhile` drops a prefix on which the predicate holds. -/
theorem dropWhile_append_all (p : Char → Bool) :
    ∀ xs ys : List Char, (∀ c ∈ xs, p c = true) →
      (xs ++ ys).dropWhile p = ys.dropWhile p := by
  intro xs
  induction xs with
  | nil => intro ys _; rfl
  | cons c cs ih =>
    intro ys h
    have hc : p c = true := h c (List.mem_cons_self c cs)
    simp only [List.cons_append, List.dropWhile_cons, hc, if_true]
    exact ih ys fun x hx => h x (List.mem_cons_of_mem c hx)

/-- Parsing with `Number.parseInt` reads back the exported integer label. -/
theorem parseIntJS_intStr (n : ℤ) : parseIntJS (intStr n) = n := by
  have htake : (natDigits n.natAbs).takeWhile Char.isDigit = natDigits n.natAbs :=
    List.takeWhile_eq_self_iff.mpr (natDigits_all_digits n.natAbs)
  by_cases hn : n < 0
  · have e : intStr n = '-' :: natDigits n.natAbs := by
      simp [intStr, hn]
    have hdrop : (intStr n).dropWhile Char.isWhitespace = '-' :: natDigits n.natAbs := by
      rw [e]
      have : ('-' : Char).isWhitespace = false := by decide
      simp [List.dropWhile_cons, this]
    simp only [parseIntJS, hdrop]
    rw [if_true, htake, digitsVal_natDigits]
    omega
  · have e : intStr n = natDigits n.natAbs := by
      simp [intStr, hn]
    cases hnd : natDigits n.natAbs with
    | nil => exact absurd hnd (natDigits_ne_nil n.natAbs)
    | cons c cs =>
      have hc : c.isDigit = true :=
        natDigits_all_digits n.natAbs c (hnd ▸ List.mem_cons_self c cs)
      obtain ⟨hws, _, _, _, hminus, hplus⟩ := isDigit_props c hc
      have hdrop : (intStr n).dropWhile Char.isWhitespace = c :: cs := by
        rw [e, hnd]
        simp [List.dropWhile_cons, hws]
      simp only [parseIntJS, hdrop]
      rw [if_neg hminus, if_neg hplus, ← hnd, htake, digitsVal_natDigits]
      omega

/-- Parsing with `parseDecCore` reads back a digit string, a dot, and two fraction
digits. -/
theorem parseDecCore_digits (q r : Nat) (hr : r < 100) :
    parseDecCore (natDigits q ++ '.' :: [digitChar (r / 10), digitChar (r % 10)]) =
      (q : ℚ) + (r : ℚ) / 100 := by
  have hdotD : ('.' : Char).isDigit = false := by decide
  have hdrop : (natDigits q ++
      '.' :: [digitChar (r / 10), digitChar (r % 10)]).dropWhile Char.isDigit =
      '.' :: [digitChar (r / 10), digitChar (r % 10)] := by
    rw [dropWhile_append_all Char.isDigit _ _ (natDigits_all_digits q)]
    simp [List.dropWhile_cons, hdotD]
  have htake : (natDigits q ++
      '.' :: [digitChar (r / 10), digitChar (r % 10)]).takeWhile Char.isDigit =
      natDigits q := by
    rw [takeWhile_append_all Char.isDigit _ _ (natDigits_all_digits q)]
    simp [List.takeWhile_cons, hdotD]
  have hd1 : (digitChar (r / 10)).isDigit = true := digitChar_isDigit _ (by omega)
  have hd0 : (digitChar (r % 10)).isDigit = true := digitChar_isDigit _ (by omega)
  have hfrac : ([digitChar (r / 10), digitChar (r % 10)]).takeWhile Char.isDigit =
      [digitChar (r / 10), digitChar (r % 10)] := by
    simp [List.takeWhile_cons, hd1, hd0]
  have hval : digitsVal [digitChar (r / 10), digitChar (r % 10)] = r := by
    simp only [digitsVal, List.foldl_cons, List.foldl_nil]
    rw [digitChar_toNat _ (by omega : r / 10 < 10), digitChar_toNat _ (by omega : r % 10 < 10)]
    omega
  simp only [parseDecCore, hdrop]
  rw [if_true, htake, hfrac, digitsVal_natDigits, hval]
  norm_num

/-- Parsing with `Number.parseFloat` reads `x.toFixed(2)` back as `x` rounded to two
decimal places. -/
theorem parseDec_toFixed2 (x : ℚ) : parseDec (toFixed2 x) = round2 x := by
  by_cases hx : x < 0
  · have hflnn : (0 : ℤ) ≤ ⌊100 * (-x) + 1/2⌋ := by
      rw [Int.le_floor]
      push_cast
      linarith
    have hfx : fixed2Int x = -⌊100 * (-x) + 1/2⌋ := by
      simp [fixed2Int, hx]
    have hm : ((fixed2Int x).natAbs : ℤ) = ⌊100 * (-x) + 1/2⌋ := by
      rw [hfx]
      omega
    have e : toFixed2 x = '-' :: (natDigits ((fixed2Int x).natAbs / 100) ++
        '.' :: [digitChar ((fixed2Int x).natAbs % 100 / 10),
                digitChar ((fixed2Int x).natAbs % 100 % 10)]) := by
      simp [toFixed2, hx]
    have hdrop : (toFixed2 x).dropWhile Char.isWhitespace =
        '-' :: (natDigits ((fixed2Int x).natAbs / 100) ++
          '.' :: [digitChar ((fixed2Int x).natAbs % 100 / 10),
                  digitChar ((fixed2Int x).natAbs % 100 % 10)]) := by
      rw [e]
      have : ('-' : Char).isWhitespace = false := by decide
      simp [List.dropWhile_cons, this]
    simp only [parseDec, hdrop]
    rw [if_true]
    rw [parseDecCore_digits _ _ (Nat.mod_lt _ (by omega))]
    have hsplit : ((fixed2Int x).natAbs : ℚ) =
        100 * (((fixed2Int x).natAbs / 100 : ℕ) : ℚ) +
          (((fixed2Int x).natAbs % 100 : ℕ) : ℚ) := by
      exact_mod_cast congrArg (fun t : ℕ => (t : ℚ)) (Nat.div_add_mod (fixed2Int x).natAbs 100).symm
    rw [round2]
    have hIle : fixed2Int x ≤ 0 := by rw [hfx]; omega
    have hcast : ((fixed2Int x : ℤ) : ℚ) = -(((fixed2Int x).natAbs : ℕ) : ℚ) := by
      rw [Int.cast_natAbs, abs_of_nonpos hIle]
      push_cast
      ring
    rw [hcast, hsplit]
    ring
  · have hflnn : (0 : ℤ) ≤ ⌊100 * x + 1/2⌋ := by
      rw [Int.le_floor]
      push_cast
      linarith [not_lt.mp hx]
    have hfx : fixed2Int x = ⌊100 * x + 1/2⌋ := by
      simp [fixed2Int, hx]
    have e : toFixed2 x = natDigits ((fixed2Int x).natAbs / 100) ++
        '.' :: [digitChar ((fixed2Int x).natAbs % 100 / 10),
                digitChar ((fixed2Int x).natAbs % 100 % 10)] := by
      simp [toFixed2, hx]
    cases hnd : natDigits ((fixed2Int x).natAbs / 100) with
    | nil => exact absurd hnd (natDigits_ne_nil _)
    | cons c cs =>
      have hc : c.isDigit = true :=
        natDigits_all_digits _ c (hnd ▸ List.mem_cons_self c cs)
      obtain ⟨hws, _, _, _, hminus, hplus⟩ := isDigit_props c hc
      have hdrop : (toFixed2 x).dropWhile Char.isWhitespace =
          c :: (cs ++ '.' :: [digitChar ((fixed2Int x).natAbs % 100 / 10),
                  digitChar ((fixed2Int x).natAbs % 100 % 10)]) := by
        rw [e, hnd]
        simp [List.dropWhile_cons, hws]
      simp only [parseDec, hdrop]
      rw [if_neg hminus, if_neg hplus]
      have hback : c :: (cs ++ '.' :: [digitChar ((fixed2Int x).natAbs % 100 / 10),
          digitChar ((fixed2Int x).natAbs % 100 % 10)]) =
          natDigits ((fixed2Int x).natAbs / 100) ++
            '.' :: [digitChar ((fixed2Int x).natAbs % 100 / 10),
                    digitChar ((fixed2Int x).natAbs % 100 % 10)] := by
        rw [hnd]
        rfl
      rw [hback, parseDecCore_digits _ _ (Nat.mod_lt _ (by omega))]
      have hsplit : ((fixed2Int x).natAbs : ℚ) =
          100 * (((fixed2Int x).natAbs / 100 : ℕ) : ℚ) +
            (((fixed2Int x).natAbs % 100 : ℕ) : ℚ) := by
        exact_mod_cast congrArg (fun t : ℕ => (t : ℚ))
          (Nat.div_add_mod (fixed2Int x).natAbs 100).symm
      have hInn : 0 ≤ fixed2Int x := by rw [hfx]; omega
      have hcast : ((fixed2Int x : ℤ) : ℚ) = (((fixed2Int x).natAbs : ℕ) : ℚ) := by
        rw [Int.cast_natAbs, abs_of_nonneg hInn]
      rw [round2, hcast, hsplit]
      ring

/-- Characters of an exported integer label: digits and the minus sign. -/
theorem intStr_chars (n : ℤ) : ∀ c ∈ intStr n, c.isDigit = true ∨ c = '-' := by
  intro c hc
  simp only [intStr] at hc
  rcases List.mem_append.mp hc with h | h
  · right
    by_cases hn : n < 0
    · rw [if_pos hn] at h
      simpa using h
    · rw [if_neg hn] at h
      simp at h
  · exact Or.inl (natDigits_all_digits n.natAbs c h)

/-- Characters of an exported fixed-point number: digits, the minus sign,
and the decimal point. -/
theorem toFixed2_chars (x : ℚ) :
    ∀ c ∈ toFixed2 x, c.isDigit = true ∨ c = '-' ∨ c = '.' := by
  intro c hc
  simp only [toFixed2] at hc
  rcases List.mem_append.mp hc with h | h
  · rcases List.mem_append.mp h with h' | h'
    · right; left
      by_cases hn : x < 0
      · rw [if_pos hn] at h'
        simpa using h'
      · rw [if_neg hn] at h'
        simp at h'
    · exact Or.inl (natDigits_all_digits _ c h')
  · simp only [List.mem_cons, List.not_mem_nil, or_false] at h
    rcases h with h'' | h'' | h''
    · exact Or.inr (Or.inr h'')
    · exact Or.inl (h'' ▸ digitChar_isDigit _ (by omega))
    · exact Or.inl (h'' ▸ digitChar_isDigit _ (by omega))

/-- No comma occurs in an exported integer label. -/
theorem comma_not_mem_intStr (n : ℤ) : ',' ∉ intStr n := by
  intro h
  rcases intStr_chars n ',' h with h' | h'
  · exact absurd h' (by decide)
  · exact absurd h' (by decide)

/-- No comma occurs in an exported fixed-point number. -/
theorem comma_not_mem_toFixed2 (x : ℚ) : ',' ∉ toFixed2 x := by
  intro h
  rcases toFixed2_chars x ',' h with h' | h' | h'
  · exact absurd h' (by decide)
  · exact absurd h' (by decide)
  · exact absurd h' (by decide)

/-- Every character of a joined list is the separator or a piece
character. -/
theorem mem_joinSep (sep : Char) :
    ∀ (l : List (List Char)) (c : Char), c ∈ joinSep sep l →
      c = sep ∨ ∃ p ∈ l, c ∈ p := by
  intro l
  induction l with
  | nil => intro c hc; simp [joinSep] at hc
  | cons p rest ih =>
    intro c hc
    cases rest with
    | nil =>
      right
      exact ⟨p, List.mem_cons_self p [], by simpa [joinSep] using hc⟩
    | cons q rest2 =>
      have e : joinSep sep (p :: q :: rest2) = p ++ sep :: joinSep sep (q :: rest2) := rfl
      rw [e] at hc
      rcases List.mem_append.mp hc with h | h
      · exact Or.inr ⟨p, List.mem_cons_self p _, h⟩
      · rcases List.mem_cons.mp h with h' | h'
        · exact Or.inl h'
        · rcases ih c h' with h'' | ⟨pp, hpp, hcpp⟩
          · exact Or.inl h''
          · exact Or.inr ⟨pp, List.mem_cons_of_mem p hpp, hcpp⟩

/-- No newline occurs in an exported CSV row line. -/
theorem newline_not_mem_rowLine (r : GameData) : '\n' ∉ rowLine r := by
  intro h
  rcases mem_joinSep ',' _ '\n' h with h' | ⟨p, hp, hcp⟩
  · exact absurd h' (by decide)
  · simp only [List.mem_cons, List.not_mem_nil, or_false] at hp
    rcases hp with h1 | h1 | h1 | h1 | h1 | h1 <;> subst h1
    · rcases intStr_chars _ '\n' hcp with h2 | h2
      · exact absurd h2 (by decide)
      · exact absurd h2 (by decide)
    all_goals
      rcases toFixed2_chars _ '\n' hcp with h2 | h2 | h2
      · exact absurd h2 (by decide)
      · exact absurd h2 (by decide)
      · exact absurd h2 (by decide)

/-- Splitting an exported row line on commas recovers its six fields. -/
theorem rowLine_fields (r : GameData) :
    jsSplit ',' (rowLine r) =
      [intStr r.pressed, toFixed2 r.y, toFixed2 r.vel, toFixed2 r.dist,
       toFixed2 r.mid1, toFixed2 r.mid2] := by
  apply jsSplit_joinSep
  · simp
  · intro p hp
    simp only [List.mem_cons, List.not_mem_nil, or_false] at hp
    rcases hp with h1 | h1 | h1 | h1 | h1 | h1 <;> subst h1
    · exact comma_not_mem_intStr _
    all_goals exact comma_not_mem_toFixed2 _

/-- An exported row line is never blank (its field separators are not
whitespace). -/
theorem rowLine_not_blank (r : GameData) :
    (rowLine r).all Char.isWhitespace = false := by
  have hmem : ',' ∈ rowLine r := by
    have e : rowLine r = intStr r.pressed ++
        ',' :: joinSep ','
          [toFixed2 r.y, toFixed2 r.vel, toFixed2 r.dist, toFixed2 r.mid1, toFixed2 r.mid2] :=
      rfl
    rw [e]
    exact List.mem_append.mpr (Or.inr (List.mem_cons_self ',' _))
  cases h : (rowLine r).all Char.isWhitespace
  · rfl
  · exact absurd (List.all_eq_true.mp h ',' hmem) (by decide)

/-- Parsing an exported row line recovers the row rounded to two
decimals. -/
theorem parseRowVals_rowLine (r : GameData) :
    parseRowVals (jsSplit ',' (rowLine r)) = round2Row r := by
  rw [rowLine_fields]
  simp only [parseRowVals, round2Row, List.getD_cons_zero, List.getD_cons_succ]
  rw [parseIntJS_intStr, parseDec_toFixed2, parseDec_toFixed2, parseDec_toFixed2,
    parseDec_toFixed2, parseDec_toFixed2]

/-- C9: exporting a non-empty dataset produces the CSV text, and parsing
that text back succeeds with exactly the original rows in order, each
numeric field rounded to two decimal places and each label unchanged. -/
theorem claim_C9 {μ : Type} (s : EngineState μ) (hne : s.dataset ≠ []) :
    downloadCSV s = some (downloadText s.dataset) ∧
    uploadParse (downloadText s.dataset) = Except.ok (s.dataset.map round2Row) := by
  constructor
  · simp only [downloadCSV]
    rw [if_neg (by simpa using hne)]
  · have hsplit : jsSplit '\n' (downloadText s.dataset) =
        headerChars :: (s.dataset.map rowLine) := by
      rw [downloadText, jsSplit_append '\n' headerChars _ (by decide)]
      rw [jsSplit_joinSep '\n' (s.dataset.map rowLine) (by simpa using hne)
        (by
          intro p hp
          obtain ⟨r, _, rfl⟩ := List.mem_map.mp hp
          exact newline_not_mem_rowLine r)]
    have hfilter : ((s.dataset.map rowLine).filter fun l =>
        ¬ l.all Char.isWhitespace ∧ (jsSplit ',' l).length = 6) = s.dataset.map rowLine := by
      apply List.filter_eq_self.mpr
      intro a ha
      obtain ⟨r, _, rfl⟩ := List.mem_map.mp ha
      simp [rowLine_not_blank, rowLine_fields]
    simp only [uploadParse, hsplit, List.getD_cons_zero, joinSep_jsSplit]
    rw [if_neg (by simp), uploadParse_filterMap]
    simp only [List.drop_succ_cons, List.drop_zero]
    rw [hfilter, List.map_map]
    have hnd : List.map ((fun l => parseRowVals (jsSplit ',' l)) ∘ rowLine) s.dataset =
        s.dataset.map round2Row :=
      List.map_congr_left fun r _ => parseRowVals_rowLine r
    rw [hnd]
    rw [if_pos (by simpa [List.length_map] using List.length_pos.mpr hne)]

/-- C9, witness: exporting and re-importing a one-row dataset returns the
row with `vel = -3/8` rounded (ties away from zero) to `-19/50 = -0.38`
and every other field intact. -/
theorem claim_C9_witness :
    uploadParse (downloadText exExportState.dataset) =
      Except.ok [{ pressed := 1, y := 5/2, vel := -19/50, dist := 100, mid1 := 0, mid2 := 7 }] := by
  rw [(claim_C9 exExportState (by simp [exExportState])).2]
  norm_num [exExportState, initialState, round2Row, round2, fixed2Int]

end FlightCoach
